import Mathlib

/-!
Shallow embedding of the HomeworkUploader backend scoring and leaderboard
engine (apps: users, groups, lessons, homework, ratings) together with
proofs about the claims of the specification.

Modelling conventions:
  - Calendar dates and timestamps are abstract day or instant indices
    (natural numbers) with the usual order; the Django ORM rows are lists
    of records; primary keys are natural numbers allocated from a counter.
  - Python float arithmetic on averages is modelled exactly over the
    rationals; the builtin round with one decimal digit is modelled as
    round half to even (the documented Python tie rule) on the scaled
    rational value.
  - Database writes performed by a request handler are modelled by
    explicit state passing: a handler takes the database value and
    returns the new database value, or an error together with the
    unchanged database when the handler raises before saving.
-/

namespace HWB

set_option maxRecDepth 8000

/-- Homework lifecycle status, from homework/models.py STATUS_CHOICES. -/
inductive HwStatus where
  | pending
  | submitted
  | rated
deriving DecidableEq, Repr

/-- Student row (users app): primary key, optional group, user active flag. -/
structure Student where
  id : Nat
  groupId : Option Nat
  userActive : Bool
deriving DecidableEq, Repr

/-- Group row (groups app): primary key, optional assigned teacher, active flag. -/
structure Group where
  id : Nat
  teacherId : Option Nat
  is_active : Bool
deriving DecidableEq, Repr

/-- Lesson row (lessons/models.py): optional group, optional teacher, optional
deadline instant, creation date and active flag. -/
structure Lesson where
  id : Nat
  groupId : Option Nat
  teacherId : Option Nat
  deadline : Option Nat
  createdDate : Nat
  is_active : Bool
deriving DecidableEq, Repr

/-- Homework row (homework/models.py). -/
structure Homework where
  id : Nat
  studentId : Nat
  lessonId : Nat
  status : HwStatus
  description : String
  submission_url : Option String
  submitted_at : Option Nat
deriving DecidableEq, Repr

/-- Rating row (ratings/models.py): references a homework, the issuing
teacher, the denormalized student, an integer score and the rating date. -/
structure Rating where
  id : Nat
  homeworkId : Nat
  teacherId : Nat
  studentId : Nat
  score : Int
  rating_date : Nat
deriving DecidableEq, Repr

/-- Persisted daily leaderboard row (ratings/models.py DailyLeaderboard). -/
structure LBRow where
  studentId : Nat
  groupId : Option Nat
  date : Nat
  average_score : Rat
  rank : Nat
  total_ratings : Nat
deriving DecidableEq, Repr

/-- The database: one list per table plus a fresh primary key counter. -/
structure DB where
  students : List Student
  groups : List Group
  lessons : List Lesson
  homeworks : List Homework
  ratings : List Rating
  leaderboard : List LBRow
  nextId : Nat
deriving DecidableEq, Repr

/-- Lesson.is_deadline_passed (lessons/models.py): true when a deadline is
set and the current instant is strictly later. -/
def is_deadline_passed (l : Lesson) (now : Nat) : Bool :=
  match l.deadline with
  | some d => decide (now > d)
  | none => false

/-- Round half to even of a rational to an integer: the exact model of the
Python builtin round on the values that arise here. -/
def roundHalfEven (q : Rat) : Int :=
  if q - ⌊q⌋ < 1/2 then ⌊q⌋
  else if (1:Rat)/2 < q - ⌊q⌋ then ⌊q⌋ + 1
  else if 2 ∣ ⌊q⌋ then ⌊q⌋ else ⌊q⌋ + 1

/-- Python round(x, 1): scale by ten, round half to even, scale back. -/
def pyRound1 (q : Rat) : Rat := (roundHalfEven (q * 10) : Rat) / 10

theorem roundHalfEven_low (q : Rat) (f : Int) (hf : ⌊q⌋ = f)
    (h : q - f < 1/2) : roundHalfEven q = f := by
  rw [roundHalfEven, hf, if_pos h]

theorem roundHalfEven_high (q : Rat) (f : Int) (hf : ⌊q⌋ = f)
    (h : (1:Rat)/2 < q - f) : roundHalfEven q = f + 1 := by
  rw [roundHalfEven, hf, if_neg (by linarith), if_pos h]

theorem pyRound1_ten_thirds : pyRound1 ((10:Rat)/3) = 33/10 := by
  rw [pyRound1,
    roundHalfEven_low ((10:Rat)/3 * 10) 33 (by norm_num) (by norm_num)]
  norm_num

/-- Lookup of a student row by primary key. -/
def findStudent (students : List Student) (sid : Nat) : Option Student :=
  students.find? (fun s => s.id = sid)

/-- Lookup of a homework row by primary key. -/
def findHomework (homeworks : List Homework) (hid : Nat) : Option Homework :=
  homeworks.find? (fun h => h.id = hid)

/-- Lookup of a lesson row by primary key. -/
def findLesson (lessons : List Lesson) (lid : Nat) : Option Lesson :=
  lessons.find? (fun l => l.id = lid)

/-- Lookup of a group row by primary key. -/
def findGroup (groups : List Group) (gid : Nat) : Option Group :=
  groups.find? (fun g => g.id = gid)

/-- First occurrences of a list of keys in order: the deterministic model of
the grouping key order of the aggregation query. -/
def dedupFirst : List Nat → List Nat
  | [] => []
  | x :: xs => x :: dedupFirst (xs.filter (fun y => y ≠ x))
termination_by l => l.length
decreasing_by
  simp only [List.length_cons]
  exact Nat.lt_succ_of_le (List.length_filter_le _ _)

theorem mem_dedupFirst (l : List Nat) (x : Nat) : x ∈ dedupFirst l ↔ x ∈ l := by
  induction l using dedupFirst.induct with
  | case1 => simp [dedupFirst]
  | case2 y ys ih =>
    rw [dedupFirst]
    by_cases hxy : x = y
    · simp [hxy]
    · simp only [List.mem_cons, hxy, false_or]
      rw [ih]
      simp [List.mem_filter, hxy]

theorem nodup_dedupFirst (l : List Nat) : (dedupFirst l).Nodup := by
  induction l using dedupFirst.induct with
  | case1 => simp [dedupFirst]
  | case2 y ys ih =>
    rw [dedupFirst]
    refine List.nodup_cons.mpr ⟨?_, ih⟩
    rw [mem_dedupFirst]
    simp [List.mem_filter]

/-- Arithmetic mean of a list of integer scores, as a rational. -/
def meanScores (scores : List Int) : Rat :=
  (scores.sum : Rat) / (scores.length : Rat)

/-- Per student aggregation row of the daily calculation: the SQL
values(student).annotate(avg, count) result. -/
structure StudentAgg where
  studentId : Nat
  avgScore : Rat
  totalRatings : Nat
deriving DecidableEq, Repr

/-- Ratings feeding one group of the daily calculation: rating_date equals
the target date and the rated student belongs to the group. -/
def dailyRatingsFor (ratings : List Rating) (students : List Student)
    (d : Nat) (g : Group) : List Rating :=
  ratings.filter (fun r =>
    r.rating_date = d &&
      match findStudent students r.studentId with
      | some s => s.groupId = some g.id
      | none => false)

/-- Scores of one student among the ratings of one group and date. -/
def dailyScoresOf (ratings : List Rating) (students : List Student)
    (d : Nat) (g : Group) (sid : Nat) : List Int :=
  ((dailyRatingsFor ratings students d g).filter
    (fun r => r.studentId = sid)).map (fun r => r.score)

/-- Group by student with average and count, in first occurrence order. -/
def dailyAggs (ratings : List Rating) (students : List Student)
    (d : Nat) (g : Group) : List StudentAgg :=
  let rs := dailyRatingsFor ratings students d g
  (dedupFirst (rs.map (fun r => r.studentId))).map (fun sid =>
    let scores := (rs.filter (fun r => r.studentId = sid)).map (fun r => r.score)
    { studentId := sid
      avgScore := meanScores scores
      totalRatings := scores.length })

/-- Comparison used by order_by of minus avg_score: descending average. -/
def dailyLe (a b : StudentAgg) : Bool := decide (b.avgScore ≤ a.avgScore)

/-- Aggregation rows sorted descending by average score (stable). -/
def dailySorted (ratings : List Rating) (students : List Student)
    (d : Nat) (g : Group) : List StudentAgg :=
  (dailyAggs ratings students d g).mergeSort dailyLe

/-- Enumerate aggregation rows into persisted rows with ranks counted from
the given start, the model of enumerate(student_scores, start=1). -/
def rankRowsFrom (g : Group) (d : Nat) (start : Nat) :
    List StudentAgg → List LBRow
  | [] => []
  | a :: rest =>
    { studentId := a.studentId
      groupId := some g.id
      date := d
      average_score := pyRound1 a.avgScore
      rank := start
      total_ratings := a.totalRatings } :: rankRowsFrom g d (start + 1) rest

/-- Rows the daily calculation writes for one group: nothing when the group
has no ratings on the date, else ranked rows from rank one. -/
def dailyGroupRows (ratings : List Rating) (students : List Student)
    (d : Nat) (g : Group) : List LBRow :=
  let rs := dailyRatingsFor ratings students d g
  if rs.isEmpty then []
  else rankRowsFrom g d 1 (dailySorted ratings students d g)

/-- Outcome of the calculate_daily_leaderboard handler. -/
inductive DailyOutcome where
  | groupNotFound
  | noRatings
  | ok (groupsProcessed : Nat) (count : Nat) (entries : List LBRow)
deriving DecidableEq, Repr

/-- Groups the daily calculation iterates: the requested group when a group
id is given, else all active groups. -/
def scopeGroups (groups : List Group) (groupId : Option Nat) : List Group :=
  match groupId with
  | some g => groups.filter (fun grp => grp.id = g)
  | none => groups.filter (fun grp => grp.is_active)

/-- Membership of a persisted row in the delete scope of a daily run. -/
def inDeleteScope (d : Nat) (groupId : Option Nat) (row : LBRow) : Bool :=
  row.date = d &&
    match groupId with
    | some g => row.groupId = some g
    | none => true

/-- Delete step of the daily calculation: drop every persisted row of the
requested date, restricted to the requested group when one is given. -/
def deleteScope (db : DB) (d : Nat) (groupId : Option Nat) : DB :=
  { db with leaderboard :=
      db.leaderboard.filter (fun row => !inDeleteScope d groupId row) }

/-- Rows computed by the per group loop of the daily calculation. -/
def dailyEntries (db : DB) (d : Nat) (groupId : Option Nat) : List LBRow :=
  (scopeGroups db.groups groupId).flatMap
    (fun g => dailyGroupRows db.ratings db.students d g)

/-- Count of groups that contributed at least one rating on the date. -/
def dailyProcessed (db : DB) (d : Nat) (groupId : Option Nat) : Nat :=
  ((scopeGroups db.groups groupId).filter
    (fun g => !(dailyRatingsFor db.ratings db.students d g).isEmpty)).length

/-- The calculate_daily_leaderboard handler (ratings/views.py): checks the
requested group exists, deletes the persisted rows in scope, computes the
rows per group, and either reports no ratings found or bulk inserts. -/
def calculate_daily_leaderboard (db : DB) (d : Nat) (groupId : Option Nat) :
    DB × DailyOutcome :=
  if (scopeGroups db.groups groupId).isEmpty ∧ groupId.isSome then
    (db, .groupNotFound)
  else
    let db1 : DB := deleteScope db d groupId
    let entries : List LBRow := dailyEntries db1 d groupId
    if entries.isEmpty then (db1, .noRatings)
    else ({ db1 with leaderboard := db1.leaderboard ++ entries },
      .ok (dailyProcessed db1 d groupId) entries.length entries)

theorem dailyLe_trans (a b c : StudentAgg) :
    dailyLe a b → dailyLe b c → dailyLe a c := by
  simp only [dailyLe, decide_eq_true_eq]
  exact fun h1 h2 => le_trans h2 h1

theorem dailyLe_total (a b : StudentAgg) : dailyLe a b || dailyLe b a := by
  simp only [dailyLe, Bool.or_eq_true, decide_eq_true_eq]
  exact le_total b.avgScore a.avgScore

theorem rankRowsFrom_map_studentId (g : Group) (d k : Nat) (l : List StudentAgg) :
    (rankRowsFrom g d k l).map (fun row => row.studentId) =
      l.map (fun a => a.studentId) := by
  induction l generalizing k with
  | nil => simp [rankRowsFrom]
  | cons a rest ih => simp [rankRowsFrom, ih]

theorem rankRowsFrom_map_rank (g : Group) (d k : Nat) (l : List StudentAgg) :
    (rankRowsFrom g d k l).map (fun row => row.rank) = List.range' k l.length := by
  induction l generalizing k with
  | nil => simp [rankRowsFrom]
  | cons a rest ih => simp [rankRowsFrom, List.range', ih]

theorem rankRowsFrom_length (g : Group) (d k : Nat) (l : List StudentAgg) :
    (rankRowsFrom g d k l).length = l.length := by
  induction l generalizing k with
  | nil => simp [rankRowsFrom]
  | cons a rest ih => simp [rankRowsFrom, ih]

theorem mem_rankRowsFrom (g : Group) (d k : Nat) (l : List StudentAgg)
    (row : LBRow) (hmem : row ∈ rankRowsFrom g d k l) :
    ∃ a ∈ l, row.studentId = a.studentId ∧
      row.average_score = pyRound1 a.avgScore ∧
      row.total_ratings = a.totalRatings ∧ row.date = d ∧ row.groupId = some g.id := by
  induction l generalizing k with
  | nil => simp [rankRowsFrom] at hmem
  | cons a rest ih =>
    rw [rankRowsFrom] at hmem
    rcases List.mem_cons.mp hmem with h | h
    · exact ⟨a, List.mem_cons_self a rest, by simp [h]⟩
    · obtain ⟨b, hb, hprops⟩ := ih (k + 1) h
      exact ⟨b, List.mem_cons_of_mem a hb, hprops⟩

theorem dailyAggs_map_studentId (ratings : List Rating) (students : List Student)
    (d : Nat) (g : Group) :
    (dailyAggs ratings students d g).map (fun a => a.studentId) =
      dedupFirst ((dailyRatingsFor ratings students d g).map
        (fun r => r.studentId)) := by
  simp [dailyAggs, List.map_map, Function.comp_def]

theorem mem_dailyAggs (ratings : List Rating) (students : List Student)
    (d : Nat) (g : Group) (a : StudentAgg)
    (hmem : a ∈ dailyAggs ratings students d g) :
    a.avgScore = meanScores (dailyScoresOf ratings students d g a.studentId) ∧
      a.totalRatings = (dailyScoresOf ratings students d g a.studentId).length := by
  simp only [dailyAggs, List.mem_map] at hmem
  obtain ⟨sid, _, rfl⟩ := hmem
  exact ⟨rfl, rfl⟩

theorem dailySorted_perm (ratings : List Rating) (students : List Student)
    (d : Nat) (g : Group) :
    (dailySorted ratings students d g).Perm (dailyAggs ratings students d g) :=
  List.mergeSort_perm _ _

theorem dailySorted_pairwise (ratings : List Rating) (students : List Student)
    (d : Nat) (g : Group) :
    (dailySorted ratings students d g).Pairwise (fun a b => dailyLe a b) :=
  List.sorted_mergeSort dailyLe_trans dailyLe_total _

theorem dailyGroupRows_of_no_ratings (ratings : List Rating)
    (students : List Student) (d : Nat) (g : Group)
    (h : dailyRatingsFor ratings students d g = []) :
    dailyGroupRows ratings students d g = [] := by
  simp [dailyGroupRows, h]

theorem mem_dailyGroupRows (ratings : List Rating) (students : List Student)
    (d : Nat) (g : Group) (row : LBRow)
    (hmem : row ∈ dailyGroupRows ratings students d g) :
    row.average_score =
        pyRound1 (meanScores (dailyScoresOf ratings students d g row.studentId)) ∧
      row.total_ratings = (dailyScoresOf ratings students d g row.studentId).length ∧
      row.date = d ∧ row.groupId = some g.id := by
  rw [dailyGroupRows] at hmem
  split at hmem
  · simp at hmem
  · obtain ⟨a, ha, hsid, havg, hcount, hdate, hgroup⟩ :=
      mem_rankRowsFrom g d 1 _ row hmem
    have ha2 : a ∈ dailyAggs ratings students d g :=
      (dailySorted_perm ratings students d g).mem_iff.mp ha
    obtain ⟨havg2, hcount2⟩ := mem_dailyAggs ratings students d g a ha2
    refine ⟨?_, ?_, hdate, hgroup⟩
    · rw [havg, havg2, hsid]
    · rw [hcount, hcount2, hsid]

theorem dailyGroupRows_map_studentId (ratings : List Rating)
    (students : List Student) (d : Nat) (g : Group) :
    ((dailyGroupRows ratings students d g).map (fun row => row.studentId)).Perm
      (dedupFirst ((dailyRatingsFor ratings students d g).map
        (fun r => r.studentId))) := by
  rw [dailyGroupRows]
  split
  · rename_i h
    rw [List.isEmpty_iff] at h
    simp [h, dedupFirst]
  · rw [rankRowsFrom_map_studentId, ← dailyAggs_map_studentId]
    exact (dailySorted_perm ratings students d g).map _

theorem dailyGroupRows_students (ratings : List Rating)
    (students : List Student) (d : Nat) (g : Group) (s : Nat) :
    (∃ row ∈ dailyGroupRows ratings students d g, row.studentId = s) ↔
      (∃ r ∈ dailyRatingsFor ratings students d g, r.studentId = s) := by
  have hperm := dailyGroupRows_map_studentId ratings students d g
  constructor
  · rintro ⟨row, hrow, rfl⟩
    have : row.studentId ∈
        (dailyGroupRows ratings students d g).map (fun row => row.studentId) :=
      List.mem_map_of_mem _ hrow
    rw [hperm.mem_iff, mem_dedupFirst, List.mem_map] at this
    obtain ⟨r, hr, hid⟩ := this
    exact ⟨r, hr, hid⟩
  · rintro ⟨r, hr, rfl⟩
    have : r.studentId ∈
        dedupFirst ((dailyRatingsFor ratings students d g).map
          (fun r => r.studentId)) := by
      rw [mem_dedupFirst, List.mem_map]
      exact ⟨r, hr, rfl⟩
    rw [← hperm.mem_iff, List.mem_map] at this
    obtain ⟨row, hrow, hid⟩ := this
    exact ⟨row, hrow, hid⟩

theorem dailyGroupRows_nodup (ratings : List Rating)
    (students : List Student) (d : Nat) (g : Group) :
    ((dailyGroupRows ratings students d g).map (fun row => row.studentId)).Nodup :=
  (dailyGroupRows_map_studentId ratings students d g).nodup_iff.mpr
    (nodup_dedupFirst _)

theorem dailyGroupRows_map_rank (ratings : List Rating)
    (students : List Student) (d : Nat) (g : Group) :
    (dailyGroupRows ratings students d g).map (fun row => row.rank) =
      List.range' 1 (dailyGroupRows ratings students d g).length := by
  rw [dailyGroupRows]
  split
  · simp
  · rw [rankRowsFrom_map_rank, rankRowsFrom_length]

theorem dailyGroupRows_sorted (ratings : List Rating)
    (students : List Student) (d : Nat) (g : Group) :
    ((dailyGroupRows ratings students d g).map (fun row => row.studentId)).Pairwise
      (fun s1 s2 => meanScores (dailyScoresOf ratings students d g s2) ≤
        meanScores (dailyScoresOf ratings students d g s1)) := by
  rw [dailyGroupRows]
  split
  · simp
  · rw [rankRowsFrom_map_studentId, List.pairwise_map]
    have hpw := dailySorted_pairwise ratings students d g
    refine hpw.imp_of_mem ?_
    intro a b ha hb hle
    have ha2 := mem_dailyAggs ratings students d g a
      ((dailySorted_perm ratings students d g).mem_iff.mp ha)
    have hb2 := mem_dailyAggs ratings students d g b
      ((dailySorted_perm ratings students d g).mem_iff.mp hb)
    rw [← ha2.1, ← hb2.1]
    simpa [dailyLe] using hle

/-- Group used by the concrete daily leaderboard examples. -/
def exGroup : Group := ⟨1, none, true⟩

/-- Database of the example of claim C2: one active group with students A
(id 1, ratings 8 and 6 on date 5), B (id 2, rating 9) and C (id 3, none). -/
def exC2DB : DB :=
  { students := [⟨1, some 1, true⟩, ⟨2, some 1, true⟩, ⟨3, some 1, true⟩]
    groups := [exGroup]
    lessons := []
    homeworks := []
    ratings :=
      [⟨11, 101, 7, 1, 8, 5⟩, ⟨12, 102, 7, 1, 6, 5⟩, ⟨13, 103, 7, 2, 9, 5⟩]
    leaderboard := []
    nextId := 50 }

/-- Database where one student has ratings 7, 8 and 8 on date 5: the mean
23/3 does not survive the one decimal place rounding of the code. -/
def roundDB : DB :=
  { students := [⟨1, some 1, true⟩]
    groups := [exGroup]
    lessons := []
    homeworks := []
    ratings :=
      [⟨11, 101, 7, 1, 7, 5⟩, ⟨12, 102, 7, 1, 8, 5⟩, ⟨13, 103, 7, 1, 8, 5⟩]
    leaderboard := []
    nextId := 50 }

/-- Claim C2, counterexample: the claim states that each persisted entry
carries the arithmetic mean of the scores of the student for the date, but
calculate_daily_leaderboard stores the mean rounded to one decimal place:
with scores 7, 8, 8 the stored average 7.7 differs from the mean 23/3. -/
theorem C2_counterexample :
    (calculate_daily_leaderboard roundDB 5 none).2 =
        .ok 1 1 [⟨1, some 1, 5, (77:Rat)/10, 1, 3⟩] ∧
      ¬ ((77:Rat)/10 =
        meanScores (dailyScoresOf roundDB.ratings roundDB.students 5 exGroup 1)) := by
  constructor
  · norm_num [calculate_daily_leaderboard, deleteScope, dailyEntries,
      dailyProcessed, scopeGroups, roundDB, exGroup,
      dailyGroupRows, dailyRatingsFor, findStudent, dailyAggs, dailySorted,
      dedupFirst, meanScores, List.mergeSort, dailyLe, rankRowsFrom, pyRound1,
      roundHalfEven, inDeleteScope, List.filter, List.find?, List.flatMap,
      List.isEmpty_iff, List.cons_ne_nil, ne_eq, reduceCtorEq]
  · norm_num [dailyScoresOf, dailyRatingsFor, findStudent, roundDB, exGroup,
      meanScores, List.filter, List.find?]

/-- Claim C2 (amended: the entry average is the arithmetic mean of the
scores of the student for the date rounded to one decimal place): for every
target date, a group with zero ratings on the date yields no entries; a
group with ratings yields exactly one entry per rated student carrying the
rounded mean and the count of the ratings of that student, ranks are
1,2,3,... in order, and the entry order is descending by mean score; the
concrete A, B, C example yields exactly the two claimed entries, B at rank
one with average 9.0, A at rank two with average 7.0, and no entry for C. -/
theorem C2_daily_leaderboard (ratings : List Rating) (students : List Student)
    (d : Nat) (g : Group) :
    (dailyRatingsFor ratings students d g = [] →
      dailyGroupRows ratings students d g = []) ∧
    (∀ s : Nat,
      (∃ row ∈ dailyGroupRows ratings students d g, row.studentId = s) ↔
        (∃ r ∈ dailyRatingsFor ratings students d g, r.studentId = s)) ∧
    ((dailyGroupRows ratings students d g).map (fun row => row.studentId)).Nodup ∧
    (∀ row ∈ dailyGroupRows ratings students d g,
      row.average_score =
          pyRound1 (meanScores (dailyScoresOf ratings students d g row.studentId)) ∧
        row.total_ratings = (dailyScoresOf ratings students d g row.studentId).length ∧
        row.date = d ∧ row.groupId = some g.id) ∧
    ((dailyGroupRows ratings students d g).map (fun row => row.rank) =
      List.range' 1 (dailyGroupRows ratings students d g).length) ∧
    ((dailyGroupRows ratings students d g).map (fun row => row.studentId)).Pairwise
      (fun s1 s2 => meanScores (dailyScoresOf ratings students d g s2) ≤
        meanScores (dailyScoresOf ratings students d g s1)) ∧
    ((calculate_daily_leaderboard exC2DB 5 none).2 =
        .ok 1 2 [⟨2, some 1, 5, 9, 1, 1⟩, ⟨1, some 1, 5, 7, 2, 2⟩] ∧
      ¬ ∃ row ∈ [(⟨2, some 1, 5, 9, 1, 1⟩ : LBRow), ⟨1, some 1, 5, 7, 2, 2⟩],
        row.studentId = 3) := by
  refine ⟨dailyGroupRows_of_no_ratings ratings students d g,
    dailyGroupRows_students ratings students d g,
    dailyGroupRows_nodup ratings students d g,
    mem_dailyGroupRows ratings students d g,
    dailyGroupRows_map_rank ratings students d g,
    dailyGroupRows_sorted ratings students d g, ?_, ?_⟩
  · norm_num [calculate_daily_leaderboard, deleteScope, dailyEntries,
      dailyProcessed, scopeGroups, exC2DB, exGroup,
      dailyGroupRows, dailyRatingsFor, findStudent, dailyAggs, dailySorted,
      dedupFirst, meanScores, List.mergeSort, dailyLe, rankRowsFrom, pyRound1,
      roundHalfEven, inDeleteScope, List.filter, List.find?, List.flatMap,
      List.isEmpty_iff, List.cons_ne_nil, ne_eq, reduceCtorEq]
  · simp

/-- Witness for claim C2: the rated student B has an entry for the example
database (the rated-students hypothesis discharged at a concrete rating),
and the group yields no entries on date 6, a date with no ratings. -/
theorem C2_daily_leaderboard_witness :
    (∃ row ∈ dailyGroupRows exC2DB.ratings exC2DB.students 5 exGroup,
        row.studentId = 2) ∧
      dailyGroupRows exC2DB.ratings exC2DB.students 6 exGroup = [] := by
  constructor
  · exact ((C2_daily_leaderboard exC2DB.ratings exC2DB.students 5 exGroup).2.1 2).mpr
      ⟨⟨13, 103, 7, 2, 9, 5⟩,
        by norm_num [dailyRatingsFor, findStudent, exC2DB, exGroup, List.filter,
          List.find?], rfl⟩
  · exact (C2_daily_leaderboard exC2DB.ratings exC2DB.students 6 exGroup).1
      (by norm_num [dailyRatingsFor, findStudent, exC2DB, exGroup, List.filter,
        List.find?])

theorem deleteScope_idem (db : DB) (d : Nat) (gid : Option Nat) :
    deleteScope (deleteScope db d gid) d gid = deleteScope db d gid := by
  simp [deleteScope, List.filter_filter]

theorem mem_dailyEntries_inScope (db : DB) (d : Nat) (gid : Option Nat)
    (row : LBRow) (hmem : row ∈ dailyEntries db d gid) :
    inDeleteScope d gid row = true := by
  rw [dailyEntries, List.mem_flatMap] at hmem
  obtain ⟨g, hg, hrow⟩ := hmem
  obtain ⟨_, _, hdate, hgroup⟩ := mem_dailyGroupRows _ _ _ _ _ hrow
  cases gid with
  | none => simp [inDeleteScope, hdate]
  | some x =>
    have : g.id = x := by
      simp only [scopeGroups, List.mem_filter, decide_eq_true_eq] at hg
      exact hg.2
    simp [inDeleteScope, hdate, hgroup, this]

theorem deleteScope_append_entries (db : DB) (d : Nat) (gid : Option Nat)
    (entries : List LBRow)
    (hscope : ∀ row ∈ entries, inDeleteScope d gid row = true) :
    deleteScope { deleteScope db d gid with
        leaderboard := (deleteScope db d gid).leaderboard ++ entries } d gid =
      deleteScope db d gid := by
  have hdrop : entries.filter (fun row => !inDeleteScope d gid row) = [] := by
    rw [List.filter_eq_nil_iff]
    intro row hrow
    simp [hscope row hrow]
  simp [deleteScope, List.filter_append, List.filter_filter, hdrop]

/-- Claim C3: the daily calculation is idempotent. Running the handler a
second time on the state produced by the first run, with the same date and
group scope and hence the same underlying ratings, reproduces exactly the
same database state and the same outcome, ties included, because the model
sorts deterministically and the second delete removes exactly the rows the
first run inserted. -/
theorem C3_idempotent (db : DB) (d : Nat) (gid : Option Nat) :
    calculate_daily_leaderboard (calculate_daily_leaderboard db d gid).1 d gid =
      calculate_daily_leaderboard db d gid := by
  by_cases hP : (scopeGroups db.groups gid).isEmpty ∧ gid.isSome
  · simp [calculate_daily_leaderboard, hP]
  · have hgroups1 : (deleteScope db d gid).groups = db.groups := rfl
    by_cases hE : (dailyEntries (deleteScope db d gid) d gid).isEmpty
    · have h1 : calculate_daily_leaderboard db d gid =
          (deleteScope db d gid, .noRatings) := by
        rw [calculate_daily_leaderboard, if_neg hP]
        simp only [hE, if_pos]
      rw [h1]
      rw [show ((deleteScope db d gid, DailyOutcome.noRatings) :
        DB × DailyOutcome).1 = deleteScope db d gid from rfl]
      rw [calculate_daily_leaderboard, hgroups1, if_neg hP, deleteScope_idem]
      simp only [hE, if_pos]
    · have h1 : calculate_daily_leaderboard db d gid =
          ({ deleteScope db d gid with
              leaderboard := (deleteScope db d gid).leaderboard ++
                dailyEntries (deleteScope db d gid) d gid },
            .ok (dailyProcessed (deleteScope db d gid) d gid)
              (dailyEntries (deleteScope db d gid) d gid).length
              (dailyEntries (deleteScope db d gid) d gid)) := by
        rw [calculate_daily_leaderboard, if_neg hP]
        simp only [if_neg hE]
      rw [h1]
      rw [show ({ deleteScope db d gid with
          leaderboard := (deleteScope db d gid).leaderboard ++
            dailyEntries (deleteScope db d gid) d gid },
          DailyOutcome.ok (dailyProcessed (deleteScope db d gid) d gid)
            (dailyEntries (deleteScope db d gid) d gid).length
            (dailyEntries (deleteScope db d gid) d gid)).1 =
        ({ deleteScope db d gid with
          leaderboard := (deleteScope db d gid).leaderboard ++
            dailyEntries (deleteScope db d gid) d gid } : DB) from rfl]
      rw [calculate_daily_leaderboard]
      rw [show ({ deleteScope db d gid with
          leaderboard := (deleteScope db d gid).leaderboard ++
            dailyEntries (deleteScope db d gid) d gid } : DB).groups =
        db.groups from rfl]
      rw [if_neg hP]
      rw [deleteScope_append_entries db d gid _
        (mem_dailyEntries_inScope (deleteScope db d gid) d gid)]
      simp only [if_neg hE]

/-- Claim C7: when the requested scope resolves (the group exists when one
is requested) but no group in scope has any rating on the target date, the
handler still deletes the persisted rows of the scope before looking at the
ratings, and then reports the no ratings outcome: the previously persisted
snapshot is gone even on the nothing to do path. -/
theorem C7_notfound_after_delete (db : DB) (d : Nat) (gid : Option Nat)
    (hscope : gid.isSome → ¬ (scopeGroups db.groups gid).isEmpty)
    (hnone : ∀ g ∈ scopeGroups db.groups gid,
      dailyRatingsFor db.ratings db.students d g = []) :
    calculate_daily_leaderboard db d gid =
      ({ db with leaderboard :=
          db.leaderboard.filter (fun row => !inDeleteScope d gid row) },
        .noRatings) := by
  have hP : ¬ ((scopeGroups db.groups gid).isEmpty ∧ gid.isSome) := by
    rintro ⟨h1, h2⟩
    exact hscope h2 h1
  have hE : (dailyEntries (deleteScope db d gid) d gid).isEmpty := by
    rw [List.isEmpty_iff, dailyEntries, List.flatMap_eq_nil_iff]
    intro g hg
    have hg2 : g ∈ scopeGroups db.groups gid := hg
    exact dailyGroupRows_of_no_ratings _ _ _ _ (hnone g hg2)
  rw [calculate_daily_leaderboard, if_neg hP]
  simp only [hE, if_pos]
  rfl

/-- Database used by the witness of claim C7: one stale persisted row for
date 5 in the active group and no ratings at all. -/
def staleDB : DB :=
  { students := [⟨1, some 1, true⟩]
    groups := [exGroup]
    lessons := []
    homeworks := []
    ratings := []
    leaderboard := [⟨1, some 1, 5, 8, 1, 1⟩]
    nextId := 50 }

/-- Witness for claim C7: on the stale database the daily run for date 5
returns the no ratings outcome with the old snapshot row already deleted,
so the persisted state was mutated on the nothing to do path. -/
theorem C7_notfound_after_delete_witness :
    calculate_daily_leaderboard staleDB 5 none =
        ({ staleDB with leaderboard := [] }, .noRatings) ∧
      staleDB.leaderboard ≠ [] := by
  constructor
  · have h := C7_notfound_after_delete staleDB 5 none
      (by intro h; simp at h)
      (by
        intro g hg
        simp only [staleDB, scopeGroups, List.filter] at hg
        norm_num [dailyRatingsFor, staleDB, List.filter])
    rw [h]
    norm_num [staleDB, inDeleteScope, List.filter]
  · simp [staleDB]

/-- Modelled from the claim wording of C10: quantization of a rational to
two decimal places, round half to even. The code does not perform this
operation; it is defined only to compare the claim against the code. -/
def quantizeTwoPlaces (q : Rat) : Rat := (roundHalfEven (q * 100) : Rat) / 100

theorem pyRound1_den (q : Rat) : (pyRound1 q * 100).den = 1 := by
  have h : pyRound1 q * 100 = ((roundHalfEven (q * 10) * 10 : Int) : Rat) := by
    rw [pyRound1]
    push_cast
    ring
  rw [h, Rat.den_intCast]

/-- Claim C10, counterexample: the claim states the persisted average
equals the arithmetic mean quantized to two decimal places, but the code
stores the mean rounded to one decimal place: with scores 7, 8, 8 the mean
23/3 is stored as 7.7 while the two place quantization is 7.67. -/
theorem C10_counterexample :
    (calculate_daily_leaderboard roundDB 5 none).2 =
        .ok 1 1 [⟨1, some 1, 5, (77:Rat)/10, 1, 3⟩] ∧
      ¬ ((77:Rat)/10 = quantizeTwoPlaces
        (meanScores (dailyScoresOf roundDB.ratings roundDB.students 5 exGroup 1))) := by
  constructor
  · norm_num [calculate_daily_leaderboard, deleteScope, dailyEntries,
      dailyProcessed, scopeGroups, roundDB, exGroup,
      dailyGroupRows, dailyRatingsFor, findStudent, dailyAggs, dailySorted,
      dedupFirst, meanScores, List.mergeSort, dailyLe, rankRowsFrom, pyRound1,
      roundHalfEven, inDeleteScope, List.filter, List.find?, List.flatMap,
      List.isEmpty_iff, List.cons_ne_nil, ne_eq, reduceCtorEq]
  · norm_num [dailyScoresOf, dailyRatingsFor, findStudent, roundDB, exGroup,
      meanScores, quantizeTwoPlaces, roundHalfEven, List.filter, List.find?]

/-- Claim C10 (amended: the persisted average equals the arithmetic mean of
the contributing scores rounded to one decimal place, a value that fits
exactly in the two place decimal(4,2) column): every row the daily
calculation produces stores the rounded mean, and one hundred times the
stored value is an integer. -/
theorem C10_stored_precision (ratings : List Rating) (students : List Student)
    (d : Nat) (g : Group) :
    ∀ row ∈ dailyGroupRows ratings students d g,
      row.average_score =
          pyRound1 (meanScores (dailyScoresOf ratings students d g row.studentId)) ∧
        (row.average_score * 100).den = 1 := by
  intro row hrow
  obtain ⟨havg, _, _, _⟩ := mem_dailyGroupRows ratings students d g row hrow
  exact ⟨havg, by rw [havg]; exact pyRound1_den _⟩

/-- Witness for claim C10: the row stored for the student with scores 7, 8
and 8 carries the rounded mean 7.7, and 7.7 times one hundred is integral. -/
theorem C10_stored_precision_witness :
    ((⟨1, some 1, 5, (77:Rat)/10, 1, 3⟩ : LBRow).average_score =
        pyRound1 (meanScores
          (dailyScoresOf roundDB.ratings roundDB.students 5 exGroup 1))) ∧
      (((⟨1, some 1, 5, (77:Rat)/10, 1, 3⟩ : LBRow).average_score) * 100).den = 1 := by
  have hmem : (⟨1, some 1, 5, (77:Rat)/10, 1, 3⟩ : LBRow) ∈
      dailyGroupRows roundDB.ratings roundDB.students 5 exGroup := by
    norm_num [dailyGroupRows, dailyRatingsFor, findStudent, dailyAggs,
      dailySorted, dedupFirst, meanScores, List.mergeSort, dailyLe,
      rankRowsFrom, pyRound1, roundHalfEven, roundDB, exGroup, List.filter,
      List.find?, List.isEmpty_iff, List.cons_ne_nil, ne_eq, reduceCtorEq]
  exact C10_stored_precision roundDB.ratings roundDB.students 5 exGroup _ hmem

/-- Entry of the monthly leaderboard response (identifier and name strings
of the serialized payload are omitted). -/
structure MonthlyEntry where
  rank : Nat
  studentId : Nat
  average_score : Rat
  total_ratings : Nat
  is_top_three : Bool
deriving DecidableEq, Repr

/-- Value of one field of the monthly response dictionary. -/
inductive MVal where
  | num (n : Int)
  | entries (l : List MonthlyEntry)
deriving DecidableEq, Repr

/-- Lessons the monthly view selects: created inside the month window,
active, and matching the optional group filter. The calendar month window
is abstracted to the inclusive day range it denotes. -/
def monthScopeLessons (lessons : List Lesson) (firstDay lastDay : Nat)
    (gid : Option Nat) : List Lesson :=
  lessons.filter (fun l =>
    firstDay ≤ l.createdDate && l.createdDate ≤ lastDay && l.is_active &&
      match gid with
      | some g => l.groupId = some g
      | none => true)

/-- Countable lesson test of the monthly view: the deadline has passed, or
some homework of the lesson has status RATED. -/
def lessonCountable (homeworks : List Homework) (now : Nat) (l : Lesson) : Bool :=
  (match l.deadline with
   | some dl => decide (dl < now)
   | none => false) ||
  homeworks.any (fun h => h.lessonId = l.id && h.status = HwStatus.rated)

/-- Identifiers of the countable lessons of the month. -/
def countableLessonIds (lessons : List Lesson) (homeworks : List Homework)
    (now firstDay lastDay : Nat) (gid : Option Nat) : List Nat :=
  ((monthScopeLessons lessons firstDay lastDay gid).filter
    (lessonCountable homeworks now)).map (fun l => l.id)

/-- Student population of the monthly view: active users, optionally
restricted to the requested group. -/
def monthStudents (students : List Student) (gid : Option Nat) : List Student :=
  students.filter (fun s =>
    s.userActive &&
      match gid with
      | some g => s.groupId = some g
      | none => true)

/-- Ratings of the month: ratings whose homework belongs to a countable
lesson. -/
def monthRatings (ratings : List Rating) (homeworks : List Homework)
    (ids : List Nat) : List Rating :=
  ratings.filter (fun r =>
    match findHomework homeworks r.homeworkId with
    | some hw => ids.contains hw.lessonId
    | none => false)

/-- Total score of one student over the countable lessons. -/
def monthTotalScore (ratings : List Rating) (homeworks : List Homework)
    (ids : List Nat) (sid : Nat) : Int :=
  (((monthRatings ratings homeworks ids).filter
    (fun r => r.studentId = sid)).map (fun r => r.score)).sum

/-- Count of ratings of one student over the countable lessons. -/
def monthRatedCount (ratings : List Rating) (homeworks : List Homework)
    (ids : List Nat) (sid : Nat) : Nat :=
  ((monthRatings ratings homeworks ids).filter
    (fun r => r.studentId = sid)).length

/-- Per student monthly score record, mirror of the student_scores dict:
the avg_score field already carries the one decimal place rounding. -/
structure MonthlyScore where
  studentId : Nat
  avgScore : Rat
  totalScore : Int
  ratedCount : Nat
deriving DecidableEq, Repr

/-- Monthly score records in student table order: the average divides by
the number of countable lessons, never by the rated count. -/
def monthlyScores (students : List Student) (ratings : List Rating)
    (homeworks : List Homework) (ids : List Nat) (gid : Option Nat) :
    List MonthlyScore :=
  (monthStudents students gid).map (fun s =>
    let total := monthTotalScore ratings homeworks ids s.id
    { studentId := s.id
      avgScore := pyRound1
        (if 0 < ids.length then (total : Rat) / (ids.length : Rat) else 0)
      totalScore := total
      ratedCount := monthRatedCount ratings homeworks ids s.id })

/-- Comparison of the monthly sort: descending by rounded average, then by
total raw score as tie break (the reverse sort on the key pair). -/
def monthlyLe (a b : MonthlyScore) : Bool :=
  decide (b.avgScore < a.avgScore ∨
    (b.avgScore = a.avgScore ∧ b.totalScore ≤ a.totalScore))

theorem monthlyLe_trans (a b c : MonthlyScore) :
    monthlyLe a b → monthlyLe b c → monthlyLe a c := by
  simp only [monthlyLe, decide_eq_true_eq]
  rintro (h1 | ⟨h1, h1t⟩) (h2 | ⟨h2, h2t⟩)
  · exact Or.inl (lt_trans h2 h1)
  · exact Or.inl (h2 ▸ h1)
  · exact Or.inl (h1 ▸ h2)
  · exact Or.inr ⟨h1 ▸ h2, le_trans h2t h1t⟩

theorem monthlyLe_total (a b : MonthlyScore) : monthlyLe a b || monthlyLe b a := by
  simp only [monthlyLe, Bool.or_eq_true, decide_eq_true_eq]
  rcases lt_trichotomy a.avgScore b.avgScore with h | h | h
  · exact Or.inr (Or.inl h)
  · rcases le_total b.totalScore a.totalScore with ht | ht
    · exact Or.inl (Or.inr ⟨h.symm, ht⟩)
    · exact Or.inr (Or.inr ⟨h, ht⟩)
  · exact Or.inl (Or.inl h)

/-- Enumerate sorted monthly scores into response entries with ranks from
the given start; is_top_three marks ranks up to three. -/
def rankEntriesFrom (start : Nat) : List MonthlyScore → List MonthlyEntry
  | [] => []
  | a :: rest =>
    { rank := start
      studentId := a.studentId
      average_score := a.avgScore
      total_ratings := a.ratedCount
      is_top_three := decide (start ≤ 3) } :: rankEntriesFrom (start + 1) rest

/-- Entries of the monthly leaderboard, sorted and ranked. -/
def monthlyEntriesOf (students : List Student) (ratings : List Rating)
    (homeworks : List Homework) (ids : List Nat) (gid : Option Nat) :
    List MonthlyEntry :=
  rankEntriesFrom 1
    ((monthlyScores students ratings homeworks ids gid).mergeSort monthlyLe)

/-- The monthly handler of DailyLeaderboardViewSet (ratings/views.py),
modelled for a caller whose scope is the optional group parameter; the
response dictionary is the ordered list of its fields. -/
def monthly (db : DB) (now : Nat) (year month : Nat)
    (firstDay lastDay : Nat) (gid : Option Nat) : List (String × MVal) :=
  let lessonsInScope := monthScopeLessons db.lessons firstDay lastDay gid
  let total_lessons := lessonsInScope.length
  let ids := countableLessonIds db.lessons db.homeworks now firstDay lastDay gid
  if ids.length = 0 then
    [("leaderboard", MVal.entries []), ("month", MVal.num month),
      ("year", MVal.num year), ("total_lessons", MVal.num total_lessons)]
  else
    [("leaderboard", MVal.entries
        (monthlyEntriesOf db.students db.ratings db.homeworks ids gid)),
      ("month", MVal.num month), ("year", MVal.num year),
      ("total_lessons", MVal.num total_lessons)]

/-- Field names of a response dictionary. -/
def responseKeys (resp : List (String × MVal)) : List String :=
  resp.map (fun p => p.1)

theorem mem_rankEntriesFrom (k : Nat) (l : List MonthlyScore)
    (e : MonthlyEntry) (hmem : e ∈ rankEntriesFrom k l) :
    ∃ a ∈ l, e.studentId = a.studentId ∧ e.average_score = a.avgScore ∧
      e.total_ratings = a.ratedCount := by
  induction l generalizing k with
  | nil => simp [rankEntriesFrom] at hmem
  | cons a rest ih =>
    rw [rankEntriesFrom] at hmem
    rcases List.mem_cons.mp hmem with h | h
    · exact ⟨a, List.mem_cons_self a rest, by simp [h]⟩
    · obtain ⟨b, hb, hprops⟩ := ih (k + 1) h
      exact ⟨b, List.mem_cons_of_mem a hb, hprops⟩

theorem rankEntriesFrom_map_studentId (k : Nat) (l : List MonthlyScore) :
    (rankEntriesFrom k l).map (fun e => e.studentId) =
      l.map (fun a => a.studentId) := by
  induction l generalizing k with
  | nil => simp [rankEntriesFrom]
  | cons a rest ih => simp [rankEntriesFrom, ih]

theorem mem_monthlyScores (students : List Student) (ratings : List Rating)
    (homeworks : List Homework) (ids : List Nat) (gid : Option Nat)
    (a : MonthlyScore) (hmem : a ∈ monthlyScores students ratings homeworks ids gid) :
    a.avgScore = pyRound1
        (if 0 < ids.length then
          (monthTotalScore ratings homeworks ids a.studentId : Rat) /
            (ids.length : Rat)
        else 0) ∧
      a.ratedCount = monthRatedCount ratings homeworks ids a.studentId := by
  simp only [monthlyScores, List.mem_map] at hmem
  obtain ⟨s, _, rfl⟩ := hmem
  exact ⟨rfl, rfl⟩

theorem monthlyEntriesOf_map_studentId (students : List Student)
    (ratings : List Rating) (homeworks : List Homework) (ids : List Nat)
    (gid : Option Nat) :
    ((monthlyEntriesOf students ratings homeworks ids gid).map
        (fun e => e.studentId)).Perm
      ((monthStudents students gid).map (fun s => s.id)) := by
  rw [monthlyEntriesOf, rankEntriesFrom_map_studentId]
  have hperm := (List.mergeSort_perm
    (monthlyScores students ratings homeworks ids gid) monthlyLe).map
    (fun a => a.studentId)
  refine hperm.trans ?_
  rw [monthlyScores, List.map_map]
  simp [Function.comp_def]

/-- Database of the monthly counterexample: three active lessons created on
day 5 of the month window, all with deadline 10 already passed at instant
20, one student with a single rated homework of score 10 on lesson 1. -/
def monthDB : DB :=
  { students := [⟨1, some 1, true⟩]
    groups := [exGroup]
    lessons := [⟨1, none, none, some 10, 5, true⟩, ⟨2, none, none, some 10, 5, true⟩,
      ⟨3, none, none, some 10, 5, true⟩]
    homeworks := [⟨100, 1, 1, .rated, "", none, none⟩]
    ratings := [⟨11, 100, 7, 1, 10, 5⟩]
    leaderboard := []
    nextId := 200 }

/-- Claim C1, counterexample: the claim states the reported monthly average
equals the sum of scores over countable lessons divided by the number of
countable lessons, but the code reports that quotient rounded to one
decimal place: with one rating of 10 and three countable lessons the
response carries 3.3 while the quotient is 10/3. -/
theorem C1_counterexample :
    monthly monthDB 20 2026 1 1 31 none =
        [("leaderboard", MVal.entries [⟨1, 1, (33:Rat)/10, 1, true⟩]),
          ("month", MVal.num 1), ("year", MVal.num 2026),
          ("total_lessons", MVal.num 3)] ∧
      ¬ ((33:Rat)/10 =
        (monthTotalScore monthDB.ratings monthDB.homeworks
            (countableLessonIds monthDB.lessons monthDB.homeworks 20 1 31 none) 1 : Rat) /
          ((countableLessonIds monthDB.lessons monthDB.homeworks 20 1 31 none).length : Rat)) := by
  constructor
  · norm_num [monthly, monthScopeLessons, countableLessonIds, lessonCountable,
      monthStudents, monthlyEntriesOf, monthlyScores, monthTotalScore,
      monthRatedCount, monthRatings, findHomework, rankEntriesFrom,
      List.mergeSort, monthlyLe, pyRound1_ten_thirds, monthDB,
      List.filter, List.find?, List.any, List.contains]
  · norm_num [countableLessonIds, monthScopeLessons, lessonCountable,
      monthTotalScore, monthRatings, findHomework, monthDB, List.filter,
      List.find?, List.any, List.contains]

/-- Claim C1 (amended: the reported monthly average is the quotient rounded
to one decimal place): a lesson of the month is countable exactly when its
deadline has passed or it has a RATED homework; when the month has
countable lessons the response leaderboard holds one entry per student in
scope, and every entry reports the rounded quotient of the total score of
the student over countable lessons by the number of countable lessons, not
by the rated count, together with the rated count itself. -/
theorem C1_monthly_average (db : DB) (now year month firstDay lastDay : Nat)
    (gid : Option Nat) :
    (∀ l ∈ monthScopeLessons db.lessons firstDay lastDay gid,
      lessonCountable db.homeworks now l = true ↔
        ((∃ dl, l.deadline = some dl ∧ dl < now) ∨
          ∃ hw ∈ db.homeworks, hw.lessonId = l.id ∧ hw.status = HwStatus.rated)) ∧
    (0 < (countableLessonIds db.lessons db.homeworks now firstDay lastDay gid).length →
      (monthly db now year month firstDay lastDay gid).lookup "leaderboard" =
        some (MVal.entries (monthlyEntriesOf db.students db.ratings db.homeworks
          (countableLessonIds db.lessons db.homeworks now firstDay lastDay gid) gid))) ∧
    (∀ e ∈ monthlyEntriesOf db.students db.ratings db.homeworks
        (countableLessonIds db.lessons db.homeworks now firstDay lastDay gid) gid,
      0 < (countableLessonIds db.lessons db.homeworks now firstDay lastDay gid).length →
        e.average_score = pyRound1
            ((monthTotalScore db.ratings db.homeworks
                (countableLessonIds db.lessons db.homeworks now firstDay lastDay gid)
                e.studentId : Rat) /
              ((countableLessonIds db.lessons db.homeworks now firstDay lastDay gid).length : Rat)) ∧
          e.total_ratings = monthRatedCount db.ratings db.homeworks
            (countableLessonIds db.lessons db.homeworks now firstDay lastDay gid)
            e.studentId) ∧
    ((monthlyEntriesOf db.students db.ratings db.homeworks
        (countableLessonIds db.lessons db.homeworks now firstDay lastDay gid) gid).map
      (fun e => e.studentId)).Perm
      ((monthStudents db.students gid).map (fun s => s.id)) := by
  refine ⟨?_, ?_, ?_, monthlyEntriesOf_map_studentId _ _ _ _ _⟩
  · intro l _
    cases hdl : l.deadline with
    | none => simp [lessonCountable, hdl, List.any_eq_true]
    | some dl => simp [lessonCountable, hdl, List.any_eq_true]
  · intro hpos
    rw [monthly]
    rw [if_neg (Nat.pos_iff_ne_zero.mp hpos)]
    simp [List.lookup]
  · intro e hmem hpos
    obtain ⟨a, ha, hsid, havg, hcount⟩ := mem_rankEntriesFrom 1 _ e
      (by rw [monthlyEntriesOf] at hmem; exact hmem)
    have ha2 := mem_monthlyScores db.students db.ratings db.homeworks _ gid a
      ((List.mergeSort_perm _ monthlyLe).mem_iff.mp ha)
    constructor
    · rw [havg, ha2.1, if_pos hpos, hsid]
    · rw [hcount, ha2.2, hsid]

/-- Witness for claim C1: in the monthly counterexample database the single
entry of the response reports the rounded quotient 3.3 of total score 10
over the three countable lessons, with rated count one. -/
theorem C1_monthly_average_witness :
    ((⟨1, 1, (33:Rat)/10, 1, true⟩ : MonthlyEntry).average_score =
        pyRound1 ((monthTotalScore monthDB.ratings monthDB.homeworks
            (countableLessonIds monthDB.lessons monthDB.homeworks 20 1 31 none)
            1 : Rat) /
          ((countableLessonIds monthDB.lessons monthDB.homeworks 20 1 31 none).length : Rat))) ∧
      (⟨1, 1, (33:Rat)/10, 1, true⟩ : MonthlyEntry).total_ratings =
        monthRatedCount monthDB.ratings monthDB.homeworks
          (countableLessonIds monthDB.lessons monthDB.homeworks 20 1 31 none) 1 := by
  have hmem : (⟨1, 1, (33:Rat)/10, 1, true⟩ : MonthlyEntry) ∈
      monthlyEntriesOf monthDB.students monthDB.ratings monthDB.homeworks
        (countableLessonIds monthDB.lessons monthDB.homeworks 20 1 31 none) none := by
    norm_num [monthlyEntriesOf, monthlyScores, monthStudents, monthTotalScore,
      monthRatedCount, monthRatings, findHomework, countableLessonIds,
      monthScopeLessons, lessonCountable, rankEntriesFrom, List.mergeSort,
      monthlyLe, pyRound1_ten_thirds, monthDB, List.filter,
      List.find?, List.any, List.contains]
  have hpos :
      0 < (countableLessonIds monthDB.lessons monthDB.homeworks 20 1 31 none).length := by
    norm_num [countableLessonIds, monthScopeLessons, lessonCountable,
      monthDB, List.filter, List.any]
  exact (C1_monthly_average monthDB 20 2026 1 1 31 none).2.2.1 _ hmem hpos

/-- Database with no rows at all, used by the response shape witnesses. -/
def emptyDB : DB :=
  { students := [], groups := [], lessons := [], homeworks := [],
    ratings := [], leaderboard := [], nextId := 0 }

/-- Claim C8, counterexample: the claim states the monthly response carries
a total countable lessons field, but the response dictionary built by the
code has exactly the fields leaderboard, month, year and total_lessons, and
no field named total_countable_lessons or totalCountableLessons. -/
theorem C8_counterexample :
    responseKeys (monthly emptyDB 0 2026 1 1 31 none) =
        ["leaderboard", "month", "year", "total_lessons"] ∧
      "total_countable_lessons" ∉ responseKeys (monthly emptyDB 0 2026 1 1 31 none) ∧
      "totalCountableLessons" ∉ responseKeys (monthly emptyDB 0 2026 1 1 31 none) := by
  have h : responseKeys (monthly emptyDB 0 2026 1 1 31 none) =
      ["leaderboard", "month", "year", "total_lessons"] := by
    norm_num [monthly, responseKeys, countableLessonIds, monthScopeLessons,
      emptyDB, List.filter]
  refine ⟨h, ?_, ?_⟩ <;> rw [h] <;> simp

/-- Claim C8 (amended: the monthly response carries the fields leaderboard,
month, year and total_lessons, with no total countable lessons field): the
field list is always exactly those four; with zero countable lessons the
leaderboard is empty; and the reported total_lessons always equals the
number of lessons of the month in scope, so a month with zero lessons is
distinguishable from a month with lessons but zero countable ones only
through that count. -/
theorem C8_response_fields (db : DB) (now year month firstDay lastDay : Nat)
    (gid : Option Nat) :
    responseKeys (monthly db now year month firstDay lastDay gid) =
        ["leaderboard", "month", "year", "total_lessons"] ∧
      ((countableLessonIds db.lessons db.homeworks now firstDay lastDay gid).length = 0 →
        monthly db now year month firstDay lastDay gid =
          [("leaderboard", MVal.entries []), ("month", MVal.num month),
            ("year", MVal.num year),
            ("total_lessons", MVal.num (monthScopeLessons db.lessons firstDay lastDay gid).length)]) ∧
      (monthly db now year month firstDay lastDay gid).lookup "total_lessons" =
        some (MVal.num ((monthScopeLessons db.lessons firstDay lastDay gid).length : Int)) := by
  refine ⟨?_, ?_, ?_⟩
  · rw [monthly]
    split <;> simp [responseKeys]
  · intro hzero
    rw [monthly, if_pos hzero]
  · rw [monthly]
    split <;> simp [List.lookup]

/-- Witness for claim C8: the empty database has zero countable lessons, so
the response is the empty leaderboard with zero reported lessons. -/
theorem C8_response_fields_witness :
    monthly emptyDB 0 2026 1 1 31 none =
      [("leaderboard", MVal.entries []), ("month", MVal.num 1),
        ("year", MVal.num 2026), ("total_lessons", MVal.num 0)] := by
  have h := (C8_response_fields emptyDB 0 2026 1 1 31 none).2.1
    (by norm_num [countableLessonIds, monthScopeLessons, emptyDB, List.filter])
  rw [h]
  norm_num [monthScopeLessons, emptyDB, List.filter]

/-- Outcome of creating a rating through RatingSerializer and the database
unique constraint on (homework, teacher). -/
inductive CreateRatingError where
  | scoreOutOfRange
  | homeworkNotFound
  | notAssignedTeacher
  | duplicateRating
deriving DecidableEq, Repr

/-- Assignment check of RatingViewSet.perform_create: when the lesson of
the homework has a group, the group teacher must be the caller. -/
def teacherAssigned (lessons : List Lesson) (groups : List Group)
    (hw : Homework) (tId : Nat) : Bool :=
  match (findLesson lessons hw.lessonId).bind (fun l => l.groupId) with
  | none => true
  | some gId =>
    match findGroup groups gId with
    | some grp => grp.teacherId = some tId
    | none => false

/-- Creation of a rating (ratings/serializers.py RatingSerializer.create
plus the model validators and the unique_together constraint): validates
the score range, resolves the homework, checks the teacher assignment,
rejects a duplicate (homework, teacher) pair, then inserts the rating with
the student denormalized from the homework and sets the homework status to
RATED. -/
def create_rating (db : DB) (hwId tId : Nat) (score : Int) (today : Nat) :
    Except CreateRatingError DB :=
  if ¬ (1 ≤ score ∧ score ≤ 10) then .error .scoreOutOfRange
  else
    match findHomework db.homeworks hwId with
    | none => .error .homeworkNotFound
    | some hw =>
      if ¬ teacherAssigned db.lessons db.groups hw tId then
        .error .notAssignedTeacher
      else if db.ratings.any (fun r => r.homeworkId = hwId && r.teacherId = tId) then
        .error .duplicateRating
      else
        .ok { db with
          ratings := db.ratings ++ [⟨db.nextId, hwId, tId, hw.studentId, score, today⟩]
          homeworks := db.homeworks.map
            (fun h => if h.id = hwId then { h with status := .rated } else h)
          nextId := db.nextId + 1 }

theorem findHomework_map_set_status (homeworks : List Homework) (hwId : Nat) :
    findHomework (homeworks.map
        (fun h => if h.id = hwId then { h with status := HwStatus.rated } else h))
      hwId =
      (findHomework homeworks hwId).map
        (fun h => { h with status := HwStatus.rated }) := by
  induction homeworks with
  | nil => rfl
  | cons h t ih =>
    by_cases hid : h.id = hwId
    · simp [findHomework, List.find?_cons, hid]
    · simp only [findHomework, List.map_cons] at ih ⊢
      simp [List.find?_cons, hid, ih]

/-- Claim C4: creating a rating with a score in [1,10] succeeds, records
the rating and flips the homework status to RATED; an immediately repeated
attempt for the same (homework, teacher) pair is rejected by the
uniqueness constraint as a duplicate instead of overwriting the first
rating. -/
theorem C4_create_rating (db : DB) (hwId tId : Nat) (score score2 : Int)
    (today today2 : Nat) (hw : Homework)
    (hscore : 1 ≤ score ∧ score ≤ 10) (hscore2 : 1 ≤ score2 ∧ score2 ≤ 10)
    (hfind : findHomework db.homeworks hwId = some hw)
    (hassigned : teacherAssigned db.lessons db.groups hw tId = true)
    (hnodup : db.ratings.any
      (fun r => r.homeworkId = hwId && r.teacherId = tId) = false) :
    ∃ db', create_rating db hwId tId score today = .ok db' ∧
      (∃ hw', findHomework db'.homeworks hwId = some hw' ∧
        hw'.status = .rated) ∧
      (∃ r ∈ db'.ratings, r.homeworkId = hwId ∧ r.teacherId = tId ∧
        r.score = score) ∧
      create_rating db' hwId tId score2 today2 = .error .duplicateRating := by
  have hfind2 : findHomework
      (db.homeworks.map
        (fun h => if h.id = hwId then { h with status := HwStatus.rated } else h))
      hwId = some { hw with status := .rated } := by
    rw [findHomework_map_set_status, hfind]
    rfl
  have hass2 : teacherAssigned db.lessons db.groups
      { hw with status := HwStatus.rated } tId = true := hassigned
  have hok : create_rating db hwId tId score today = .ok { db with
      ratings := db.ratings ++ [⟨db.nextId, hwId, tId, hw.studentId, score, today⟩]
      homeworks := db.homeworks.map
        (fun h => if h.id = hwId then { h with status := HwStatus.rated } else h)
      nextId := db.nextId + 1 } := by
    simp [create_rating, hfind, hassigned, hnodup, hscore.1, hscore.2]
  refine ⟨_, hok, ⟨{ hw with status := .rated }, hfind2, rfl⟩, ?_, ?_⟩
  · exact ⟨⟨db.nextId, hwId, tId, hw.studentId, score, today⟩,
      by simp, rfl, rfl, rfl⟩
  · simp [create_rating, hfind2, hass2, hscore2.1, hscore2.2, List.any_append]

/-- Database of the witness for claim C4: one submitted homework in a group
whose assigned teacher is teacher 7, with no prior ratings. -/
def c4DB : DB :=
  { students := [⟨1, some 1, true⟩]
    groups := [⟨1, some 7, true⟩]
    lessons := [⟨1, some 1, some 7, some 10, 5, true⟩]
    homeworks := [⟨100, 1, 1, .submitted, "", none, some 6⟩]
    ratings := []
    leaderboard := []
    nextId := 200 }

/-- Witness for claim C4: teacher 7 rates homework 100 with score 9; the
homework becomes RATED and a second attempt with score 8 is rejected as a
duplicate. -/
theorem C4_create_rating_witness :
    ∃ db', create_rating c4DB 100 7 9 6 = .ok db' ∧
      (∃ hw', findHomework db'.homeworks 100 = some hw' ∧
        hw'.status = .rated) ∧
      (∃ r ∈ db'.ratings, r.homeworkId = 100 ∧ r.teacherId = 7 ∧
        r.score = 9) ∧
      create_rating db' 100 7 8 7 = .error .duplicateRating := by
  refine C4_create_rating c4DB 100 7 9 8 6 7 ⟨100, 1, 1, .submitted, "", none, some 6⟩
    (by norm_num) (by norm_num) ?_ ?_ ?_
  · norm_num [findHomework, c4DB, List.find?]
  · norm_num [teacherAssigned, findLesson, findGroup, c4DB, List.find?]
  · norm_num [c4DB]

/-- Role of the caller of a request. -/
inductive Role where
  | admin
  | teacher
  | student
deriving DecidableEq, Repr

/-- Caller of a request: role plus the profile primary key of that role. -/
structure Actor where
  role : Role
  profileId : Nat
deriving DecidableEq, Repr

/-- Fields of a homework edit payload; a field left none is not touched. -/
structure HwEdit where
  submission_url : Option String
  description : Option String
deriving DecidableEq, Repr

/-- Application of an edit payload to a homework row. -/
def applyEdit (hw : Homework) (e : HwEdit) : Homework :=
  { hw with
    submission_url :=
      match e.submission_url with
      | some u => some u
      | none => hw.submission_url
    description :=
      match e.description with
      | some t => t
      | none => hw.description }

/-- Errors of HomeworkViewSet.perform_update. -/
inductive UpdateError where
  | notFound
  | ratedLocked
  | notOwner
deriving DecidableEq, Repr

/-- HomeworkViewSet.perform_update (homework/views.py): a student caller is
rejected with PermissionDenied when the homework is already RATED, checked
before ownership; otherwise the edit is saved. -/
def perform_update (db : DB) (actor : Actor) (hwId : Nat) (e : HwEdit) :
    Except UpdateError DB :=
  match findHomework db.homeworks hwId with
  | none => .error .notFound
  | some hw =>
    if actor.role = .student ∧ hw.status = .rated then .error .ratedLocked
    else if actor.role = .student ∧ hw.studentId ≠ actor.profileId then
      .error .notOwner
    else
      .ok { db with
        homeworks := db.homeworks.map
          (fun h => if h.id = hwId then applyEdit h e else h) }

/-- Errors of HomeworkViewSet.submit_for_lesson. -/
inductive SubmitError where
  | lessonNotFound
  | wrongGroup
  | ratedLocked
deriving DecidableEq, Repr

/-- HomeworkViewSet.submit_for_lesson (homework/views.py): resolves the
lesson, checks the group of the student against the group of the lesson,
and either updates the existing homework (rejected with PermissionDenied
when it is RATED) or creates a new submitted homework. -/
def submit_for_lesson (db : DB) (s : Student) (lessonId : Nat) (e : HwEdit)
    (now : Nat) : Except SubmitError DB :=
  match findLesson db.lessons lessonId with
  | none => .error .lessonNotFound
  | some lesson =>
    if (match lesson.groupId with
        | some lg => decide (s.groupId ≠ some lg)
        | none => false) then .error .wrongGroup
    else
      match db.homeworks.find?
        (fun h => h.studentId = s.id && h.lessonId = lessonId) with
      | some hw =>
        if hw.status = .rated then .error .ratedLocked
        else
          .ok { db with
            homeworks := db.homeworks.map
              (fun h => if h.id = hw.id then
                { applyEdit h e with
                  status := .submitted, submitted_at := some now }
              else h) }
      | none =>
        .ok { db with
          homeworks := db.homeworks ++
            [⟨db.nextId, s.id, lessonId, .submitted,
              (e.description.getD ""), e.submission_url, some now⟩]
          nextId := db.nextId + 1 }

/-- State reached by perform_update: the new database on success, the old
database when the handler raises. -/
def run_perform_update (db : DB) (actor : Actor) (hwId : Nat) (e : HwEdit) : DB :=
  match perform_update db actor hwId e with
  | .ok db' => db'
  | .error _ => db

/-- State reached by submit_for_lesson: the new database on success, the
old database when the handler raises. -/
def run_submit_for_lesson (db : DB) (s : Student) (lessonId : Nat)
    (e : HwEdit) (now : Nat) : DB :=
  match submit_for_lesson db s lessonId e now with
  | .ok db' => db'
  | .error _ => db

/-- Claim C5: for a homework with status RATED, an edit attempt by the
submitting student fails with the PermissionDenied class error on both the
update path and the submit path, and the database is left unchanged. -/
theorem C5_rated_immutable (db : DB) (actor : Actor) (hwId : Nat)
    (e e2 : HwEdit) (s : Student) (lessonId now : Nat)
    (hw hw2 : Homework) (lesson : Lesson)
    (hfind : findHomework db.homeworks hwId = some hw)
    (hrole : actor.role = .student)
    (howner : hw.studentId = actor.profileId)
    (hrated : hw.status = .rated)
    (hlesson : findLesson db.lessons lessonId = some lesson)
    (hgroupok : ∀ lg, lesson.groupId = some lg → s.groupId = some lg)
    (hexist : db.homeworks.find?
      (fun h => h.studentId = s.id && h.lessonId = lessonId) = some hw2)
    (hrated2 : hw2.status = .rated) :
    perform_update db actor hwId e = .error .ratedLocked ∧
      run_perform_update db actor hwId e = db ∧
      submit_for_lesson db s lessonId e2 now = .error .ratedLocked ∧
      run_submit_for_lesson db s lessonId e2 now = db := by
  have h1 : perform_update db actor hwId e = .error .ratedLocked := by
    simp [perform_update, hfind, hrole, hrated]
  have h2 : submit_for_lesson db s lessonId e2 now = .error .ratedLocked := by
    have hwrong : (match lesson.groupId with
        | some lg => !decide (s.groupId = some lg)
        | none => false) = false := by
      cases hlg : lesson.groupId with
      | none => rfl
      | some lg => simp [hgroupok lg hlg]
    simp [submit_for_lesson, hlesson, hwrong, hexist, hrated2]
  refine ⟨h1, ?_, h2, ?_⟩
  · rw [run_perform_update, h1]
  · rw [run_submit_for_lesson, h2]

/-- Database of the witness for claim C5: student 1 has a RATED homework
for lesson 1 of group 1. -/
def c5DB : DB :=
  { students := [⟨1, some 1, true⟩]
    groups := [⟨1, some 7, true⟩]
    lessons := [⟨1, some 1, some 7, some 10, 5, true⟩]
    homeworks := [⟨100, 1, 1, .rated, "done", some "u", some 6⟩]
    ratings := [⟨11, 100, 7, 1, 9, 6⟩]
    leaderboard := []
    nextId := 200 }

/-- Witness for claim C5: student 1 attempting to edit the rated homework
100, through either path, gets the PermissionDenied class error and the
database stays identical. -/
theorem C5_rated_immutable_witness :
    perform_update c5DB ⟨.student, 1⟩ 100 ⟨some "x", none⟩ =
        .error .ratedLocked ∧
      run_perform_update c5DB ⟨.student, 1⟩ 100 ⟨some "x", none⟩ = c5DB ∧
      submit_for_lesson c5DB ⟨1, some 1, true⟩ 1 ⟨some "x", none⟩ 7 =
        .error .ratedLocked ∧
      run_submit_for_lesson c5DB ⟨1, some 1, true⟩ 1 ⟨some "x", none⟩ 7 = c5DB := by
  refine C5_rated_immutable c5DB ⟨.student, 1⟩ 100 ⟨some "x", none⟩
    ⟨some "x", none⟩ ⟨1, some 1, true⟩ 1 7
    ⟨100, 1, 1, .rated, "done", some "u", some 6⟩
    ⟨100, 1, 1, .rated, "done", some "u", some 6⟩
    ⟨1, some 1, some 7, some 10, 5, true⟩
    ?_ rfl rfl rfl ?_ ?_ ?_ rfl
  · norm_num [findHomework, c5DB, List.find?]
  · norm_num [findLesson, c5DB, List.find?]
  · intro lg hlg
    simpa using hlg
  · norm_num [c5DB, List.find?]

/-- Errors of LessonViewSet.auto_rate_missing. -/
inductive AutoRateError where
  | lessonNotFound
  | permissionDenied
  | deadlineNotPassed
  | noGroup
  | noTeacher
deriving DecidableEq, Repr

/-- Permission check of auto_rate_missing: a teacher caller must be the
assigned teacher of the group of the lesson. -/
def autoRatePermitted (db : DB) (actor : Actor) (lesson : Lesson) : Bool :=
  !(decide (actor.role = Role.teacher) &&
    (match lesson.groupId with
     | some lg =>
       (match findGroup db.groups lg with
        | some g => decide (g.teacherId ≠ some actor.profileId)
        | none => true)
     | none => false))

/-- Teacher attributed to the zero ratings: the lesson teacher, else the
calling teacher, else nobody. -/
def resolvedTeacher (lesson : Lesson) (actor : Actor) : Option Nat :=
  match lesson.teacherId with
  | some t => some t
  | none => if actor.role = Role.teacher then some actor.profileId else none

/-- Lookup of the homework of one student for one lesson. -/
def findHwFor (homeworks : List Homework) (sid lessonId : Nat) : Option Homework :=
  homeworks.find? (fun h => h.studentId = sid && h.lessonId = lessonId)

/-- Group students without a homework record for the lesson. -/
def missingStudents (db : DB) (lessonId lg : Nat) : List Student :=
  (db.students.filter (fun s => s.groupId = some lg)).filter
    (fun s => !(db.homeworks.filter (fun h => h.lessonId = lessonId)).any
      (fun h => h.studentId = s.id))

/-- Loop body of auto_rate_missing over the missing students: get or create
the homework (created with status RATED), then create the zero rating when
the homework has none; the counter counts students whose homework was
created and rated. -/
def auto_rate_loop (lessonId tId today : Nat) : DB → List Student → DB × Nat
  | db, [] => (db, 0)
  | db, s :: rest =>
    match findHwFor db.homeworks s.id lessonId with
    | some hw =>
      let db1 := if db.ratings.any (fun r => r.homeworkId = hw.id) then db
        else { db with
          ratings := db.ratings ++ [⟨db.nextId, hw.id, tId, s.id, 0, today⟩]
          nextId := db.nextId + 1 }
      auto_rate_loop lessonId tId today db1 rest
    | none =>
      let hw : Homework := ⟨db.nextId, s.id, lessonId, .rated,
        "Auto-created: Missed deadline", none, none⟩
      let db1 : DB := { db with
        homeworks := db.homeworks ++ [hw]
        nextId := db.nextId + 1 }
      let db2 := if db1.ratings.any (fun r => r.homeworkId = hw.id) then db1
        else { db1 with
          ratings := db1.ratings ++ [⟨db1.nextId, hw.id, tId, s.id, 0, today⟩]
          nextId := db1.nextId + 1 }
      let next := auto_rate_loop lessonId tId today db2 rest
      (next.1, next.2 +
        (if db1.ratings.any (fun r => r.homeworkId = hw.id) then 0 else 1))

/-- LessonViewSet.auto_rate_missing (lessons/views.py): resolves the
lesson, checks permission, requires the deadline to have passed, the
lesson to have a group and a resolvable teacher, then zero rates every
group student without a homework record. -/
def auto_rate_missing (db : DB) (now today : Nat) (actor : Actor)
    (lessonId : Nat) : Except AutoRateError (DB × Nat) :=
  match findLesson db.lessons lessonId with
  | none => .error .lessonNotFound
  | some lesson =>
    if !autoRatePermitted db actor lesson then .error .permissionDenied
    else if !is_deadline_passed lesson now then .error .deadlineNotPassed
    else
      match lesson.groupId with
      | none => .error .noGroup
      | some lg =>
        match resolvedTeacher lesson actor with
        | none => .error .noTeacher
        | some tId =>
          .ok (auto_rate_loop lessonId tId today db
            (missingStudents db lessonId lg))

/-- State reached by auto_rate_missing: the new database on success, the
old database when the handler rejects the request. -/
def run_auto_rate (db : DB) (now today : Nat) (actor : Actor)
    (lessonId : Nat) : DB :=
  match auto_rate_missing db now today actor lessonId with
  | .ok p => p.1
  | .error _ => db

/-- One student has been zero rated for the lesson: a homework record with
status RATED exists together with a rating of score zero against it. -/
def hwRatedZero (db : DB) (lessonId sid : Nat) : Prop :=
  ∃ hw ∈ db.homeworks, hw.studentId = sid ∧ hw.lessonId = lessonId ∧
    hw.status = .rated ∧ ∃ r ∈ db.ratings, r.homeworkId = hw.id ∧ r.score = 0

/-- Key freshness invariant of the primary key counter. -/
def freshIds (db : DB) : Prop :=
  (∀ h ∈ db.homeworks, h.id < db.nextId) ∧
    (∀ r ∈ db.ratings, r.homeworkId < db.nextId)

/-- Per student precondition of the loop: either the student has no
homework for the lesson yet, or the homework found for the student is
already RATED with a zero rating attached. -/
def loopPre (db : DB) (lessonId : Nat) (s : Student) : Prop :=
  match findHwFor db.homeworks s.id lessonId with
  | none => True
  | some hw => hw.status = .rated ∧
      ∃ r ∈ db.ratings, r.homeworkId = hw.id ∧ r.score = 0

theorem auto_rate_loop_mono (lessonId tId today : Nat) :
    ∀ (students : List Student) (db : DB),
      ∃ hext rext,
        (auto_rate_loop lessonId tId today db students).1.homeworks =
            db.homeworks ++ hext ∧
          (auto_rate_loop lessonId tId today db students).1.ratings =
            db.ratings ++ rext := by
  intro students
  induction students with
  | nil => exact fun db => ⟨[], [], by simp [auto_rate_loop]⟩
  | cons s rest ih =>
    intro db
    rw [auto_rate_loop]
    cases hfind : findHwFor db.homeworks s.id lessonId with
    | some hw =>
      by_cases hany : db.ratings.any (fun r => r.homeworkId = hw.id) = true
      · simp only [hany, if_pos]
        exact ih db
      · simp only [hany, if_neg, Bool.false_eq_true, not_false_iff]
        obtain ⟨he, re, h1, h2⟩ := ih { db with
          ratings := db.ratings ++ [⟨db.nextId, hw.id, tId, s.id, 0, today⟩]
          nextId := db.nextId + 1 }
        exact ⟨he, [⟨db.nextId, hw.id, tId, s.id, 0, today⟩] ++ re,
          by simpa using h1, by simpa [List.append_assoc] using h2⟩
    | none =>
      by_cases hany : (db.ratings.any (fun r =>
          r.homeworkId = (⟨db.nextId, s.id, lessonId, .rated,
            "Auto-created: Missed deadline", none, none⟩ : Homework).id)) = true
      · simp only [hany, if_pos]
        obtain ⟨he, re, h1, h2⟩ := ih { db with
          homeworks := db.homeworks ++ [⟨db.nextId, s.id, lessonId, .rated,
            "Auto-created: Missed deadline", none, none⟩]
          nextId := db.nextId + 1 }
        exact ⟨[⟨db.nextId, s.id, lessonId, .rated,
            "Auto-created: Missed deadline", none, none⟩] ++ he, re,
          by simpa [List.append_assoc] using h1, by simpa using h2⟩
      · simp only [hany, if_neg, Bool.false_eq_true, not_false_iff]
        obtain ⟨he, re, h1, h2⟩ := ih { db with
          homeworks := db.homeworks ++ [⟨db.nextId, s.id, lessonId, .rated,
            "Auto-created: Missed deadline", none, none⟩]
          ratings := db.ratings ++ [⟨db.nextId + 1, db.nextId, tId, s.id, 0, today⟩]
          nextId := db.nextId + 1 + 1 }
        exact ⟨[⟨db.nextId, s.id, lessonId, .rated,
            "Auto-created: Missed deadline", none, none⟩] ++ he,
          [⟨db.nextId + 1, db.nextId, tId, s.id, 0, today⟩] ++ re,
          by simpa [List.append_assoc] using h1,
          by simpa [List.append_assoc] using h2⟩

theorem hwRatedZero_mono (db db' : DB) (lessonId sid : Nat)
    (hh : ∃ hext, db'.homeworks = db.homeworks ++ hext)
    (hr : ∃ rext, db'.ratings = db.ratings ++ rext)
    (hz : hwRatedZero db lessonId sid) : hwRatedZero db' lessonId sid := by
  obtain ⟨hext, hhe⟩ := hh
  obtain ⟨rext, hre⟩ := hr
  obtain ⟨hw, hmem, h1, h2, h3, r, rmem, r1, r2⟩ := hz
  exact ⟨hw, by rw [hhe]; exact List.mem_append_left _ hmem, h1, h2, h3,
    r, by rw [hre]; exact List.mem_append_left _ rmem, r1, r2⟩

theorem auto_rate_loop_spec (lessonId tId today : Nat) :
    ∀ (students : List Student) (db : DB), freshIds db →
      (∀ s ∈ students, loopPre db lessonId s) →
      ∀ s ∈ students,
        hwRatedZero (auto_rate_loop lessonId tId today db students).1
          lessonId s.id := by
  intro students
  induction students with
  | nil =>
    intro db _ _ s hs
    simp at hs
  | cons s0 rest ih =>
    intro db hfresh hpre s hs
    rw [auto_rate_loop]
    cases hfind : findHwFor db.homeworks s0.id lessonId with
    | some hw =>
      have hp0 := hpre s0 (List.mem_cons_self _ _)
      simp only [loopPre, hfind] at hp0
      obtain ⟨hrate, r0, hr0mem, hr0id, hr0score⟩ := hp0
      have hany : db.ratings.any (fun r => r.homeworkId = hw.id) = true := by
        rw [List.any_eq_true]
        exact ⟨r0, hr0mem, by simp [hr0id]⟩
      simp only [hany, if_pos]
      rcases List.mem_cons.mp hs with rfl | hs2
      · have hz : hwRatedZero db lessonId s.id := by
          have hmem := List.mem_of_find?_eq_some hfind
          have hp := List.find?_some hfind
          simp only [Bool.and_eq_true, decide_eq_true_eq] at hp
          exact ⟨hw, hmem, hp.1, hp.2, hrate, r0, hr0mem, hr0id, hr0score⟩
        obtain ⟨he, re, h1, h2⟩ := auto_rate_loop_mono lessonId tId today rest db
        exact hwRatedZero_mono db _ _ _ ⟨he, h1⟩ ⟨re, h2⟩ hz
      · exact ih db hfresh (fun x hx => hpre x (List.mem_cons_of_mem _ hx)) s hs2
    | none =>
      have hidred : (⟨db.nextId, s0.id, lessonId, HwStatus.rated,
          "Auto-created: Missed deadline", none, none⟩ : Homework).id =
          db.nextId := rfl
      have hanyf : (db.ratings.any (fun r =>
          r.homeworkId = (⟨db.nextId, s0.id, lessonId, HwStatus.rated,
            "Auto-created: Missed deadline", none, none⟩ : Homework).id)) = false := by
        rw [List.any_eq_false]
        intro r hrmem
        have hlt := hfresh.2 r hrmem
        simp only [hidred, decide_eq_true_eq]
        omega
      have hany2 : ¬ ((db.ratings.any (fun r =>
          r.homeworkId = (⟨db.nextId, s0.id, lessonId, HwStatus.rated,
            "Auto-created: Missed deadline", none, none⟩ : Homework).id)) = true) := by
        simp [hanyf]
      simp only [hany2, if_neg, Bool.false_eq_true, not_false_iff]
      have hfresh2 : freshIds { db with
          homeworks := db.homeworks ++ [⟨db.nextId, s0.id, lessonId, HwStatus.rated,
            "Auto-created: Missed deadline", none, none⟩]
          ratings := db.ratings ++ [⟨db.nextId + 1, db.nextId, tId, s0.id, 0, today⟩]
          nextId := db.nextId + 1 + 1 } := by
        constructor
        · intro h hmem
          rcases List.mem_append.mp hmem with hmem2 | hmem2
          · have := hfresh.1 h hmem2
            simp only []
            omega
          · simp only [List.mem_singleton] at hmem2
            subst hmem2
            simp only [hidred]
            omega
        · intro r hrmem
          rcases List.mem_append.mp hrmem with hrmem2 | hrmem2
          · have := hfresh.2 r hrmem2
            simp only []
            omega
          · simp only [List.mem_singleton] at hrmem2
            subst hrmem2
            simp only []
            omega
      have hpre2 : ∀ x ∈ rest, loopPre { db with
          homeworks := db.homeworks ++ [⟨db.nextId, s0.id, lessonId, HwStatus.rated,
            "Auto-created: Missed deadline", none, none⟩]
          ratings := db.ratings ++ [⟨db.nextId + 1, db.nextId, tId, s0.id, 0, today⟩]
          nextId := db.nextId + 1 + 1 } lessonId x := by
        intro x hx
        have hpx := hpre x (List.mem_cons_of_mem _ hx)
        simp only [loopPre, findHwFor] at hpx ⊢
        rw [List.find?_append]
        cases hx2 : db.homeworks.find?
            (fun h => h.studentId = x.id && h.lessonId = lessonId) with
        | some hw2 =>
          simp only [hx2, Option.or_some] at hpx ⊢
          obtain ⟨h1, r, hrm, h2, h3⟩ := hpx
          exact ⟨h1, r, List.mem_append_left _ hrm, h2, h3⟩
        | none =>
          have hfs : (List.find?
              (fun h => h.studentId = x.id && h.lessonId = lessonId)
              [(⟨db.nextId, s0.id, lessonId, HwStatus.rated,
                "Auto-created: Missed deadline", none, none⟩ : Homework)]) =
              (if s0.id = x.id then
                some (⟨db.nextId, s0.id, lessonId, HwStatus.rated,
                  "Auto-created: Missed deadline", none, none⟩ : Homework)
              else none) := by
            by_cases hxid : s0.id = x.id <;> simp [List.find?, hxid]
          rw [hfs]
          by_cases hxid : s0.id = x.id
          · rw [if_pos hxid]
            simp only [Option.none_or]
            exact ⟨trivial, ⟨db.nextId + 1, db.nextId, tId, s0.id, 0, today⟩,
              List.mem_append_right _ (List.mem_singleton_self _), rfl, rfl⟩
          · rw [if_neg hxid]
            simp
      rcases List.mem_cons.mp hs with rfl | hs2
      · have hz : hwRatedZero { db with
            homeworks := db.homeworks ++ [⟨db.nextId, s.id, lessonId, HwStatus.rated,
              "Auto-created: Missed deadline", none, none⟩]
            ratings := db.ratings ++ [⟨db.nextId + 1, db.nextId, tId, s.id, 0, today⟩]
            nextId := db.nextId + 1 + 1 } lessonId s.id := by
          refine ⟨⟨db.nextId, s.id, lessonId, HwStatus.rated,
              "Auto-created: Missed deadline", none, none⟩,
            List.mem_append_right _ (List.mem_singleton_self _), rfl, rfl, rfl,
            ⟨db.nextId + 1, db.nextId, tId, s.id, 0, today⟩,
            List.mem_append_right _ (List.mem_singleton_self _), rfl, rfl⟩
        obtain ⟨he, re, h1, h2⟩ := auto_rate_loop_mono lessonId tId today rest _
        exact hwRatedZero_mono _ _ _ _ ⟨he, h1⟩ ⟨re, h2⟩ hz
      · exact ih _ hfresh2 hpre2 s hs2

/-- Claim C6: auto_rate_missing rejects the request with a precondition
error, and touches no state, whenever the deadline has not passed, the
lesson has no group, or no teacher can be resolved; otherwise it succeeds
and every group student without a homework record ends with a RATED
homework record carrying a rating of score zero. -/
theorem C6_auto_rate (db : DB) (now today : Nat) (actor : Actor)
    (lessonId : Nat) (lesson : Lesson)
    (hfind : findLesson db.lessons lessonId = some lesson)
    (hperm : autoRatePermitted db actor lesson = true)
    (hfresh : freshIds db) :
    (is_deadline_passed lesson now = false →
      auto_rate_missing db now today actor lessonId =
          .error .deadlineNotPassed ∧
        run_auto_rate db now today actor lessonId = db) ∧
    (is_deadline_passed lesson now = true → lesson.groupId = none →
      auto_rate_missing db now today actor lessonId = .error .noGroup ∧
        run_auto_rate db now today actor lessonId = db) ∧
    (∀ lg, is_deadline_passed lesson now = true → lesson.groupId = some lg →
      resolvedTeacher lesson actor = none →
      auto_rate_missing db now today actor lessonId = .error .noTeacher ∧
        run_auto_rate db now today actor lessonId = db) ∧
    (∀ lg tId, is_deadline_passed lesson now = true →
      lesson.groupId = some lg → resolvedTeacher lesson actor = some tId →
      ∃ db' n, auto_rate_missing db now today actor lessonId = .ok (db', n) ∧
        ∀ s ∈ missingStudents db lessonId lg, hwRatedZero db' lessonId s.id) := by
  refine ⟨?_, ?_, ?_, ?_⟩
  · intro hdl
    have h1 : auto_rate_missing db now today actor lessonId =
        .error .deadlineNotPassed := by
      simp [auto_rate_missing, hfind, hperm, hdl]
    exact ⟨h1, by rw [run_auto_rate, h1]⟩
  · intro hdl hlg
    have h1 : auto_rate_missing db now today actor lessonId =
        .error .noGroup := by
      simp [auto_rate_missing, hfind, hperm, hdl, hlg]
    exact ⟨h1, by rw [run_auto_rate, h1]⟩
  · intro lg hdl hlg ht
    have h1 : auto_rate_missing db now today actor lessonId =
        .error .noTeacher := by
      simp [auto_rate_missing, hfind, hperm, hdl, hlg, ht]
    exact ⟨h1, by rw [run_auto_rate, h1]⟩
  · intro lg tId hdl hlg ht
    have hpre : ∀ s ∈ missingStudents db lessonId lg, loopPre db lessonId s := by
      intro s hsmem
      rw [missingStudents] at hsmem
      have h2 := (List.mem_filter.mp hsmem).2
      simp only [Bool.not_eq_true', List.any_eq_false, List.mem_filter,
        decide_eq_true_eq] at h2
      rw [loopPre]
      cases hf : findHwFor db.homeworks s.id lessonId with
      | none => trivial
      | some hw =>
        have hmem := List.mem_of_find?_eq_some hf
        have hp := List.find?_some hf
        simp only [Bool.and_eq_true, decide_eq_true_eq] at hp
        exact absurd hp.1 (h2 hw ⟨hmem, hp.2⟩)
    refine ⟨(auto_rate_loop lessonId tId today db
        (missingStudents db lessonId lg)).1,
      (auto_rate_loop lessonId tId today db
        (missingStudents db lessonId lg)).2, ?_, ?_⟩
    · simp [auto_rate_missing, hfind, hperm, hdl, hlg, ht]
    · exact fun s hsmem =>
        auto_rate_loop_spec lessonId tId today _ db hfresh hpre s hsmem

/-- Database of the witness for claim C6: lesson 1 of group 1 with teacher
7 and deadline 10, one group student with no homework record. -/
def c6DB : DB :=
  { students := [⟨1, some 1, true⟩]
    groups := [⟨1, some 7, true⟩]
    lessons := [⟨1, some 1, some 7, some 10, 5, true⟩]
    homeworks := []
    ratings := []
    leaderboard := []
    nextId := 200 }

/-- Witness for claim C6: called by an admin at instant 20, past the
deadline, auto rating succeeds and the missing student 1 ends zero rated;
called at instant 5, before the deadline, the request is rejected and the
database is untouched. -/
theorem C6_auto_rate_witness :
    (∃ db' n, auto_rate_missing c6DB 20 20 ⟨.admin, 0⟩ 1 = .ok (db', n) ∧
      ∀ s ∈ missingStudents c6DB 1 1, hwRatedZero db' 1 s.id) ∧
    (auto_rate_missing c6DB 5 5 ⟨.admin, 0⟩ 1 = .error .deadlineNotPassed ∧
      run_auto_rate c6DB 5 5 ⟨.admin, 0⟩ 1 = c6DB) := by
  have hfind : findLesson c6DB.lessons 1 =
      some ⟨1, some 1, some 7, some 10, 5, true⟩ := by
    norm_num [findLesson, c6DB, List.find?]
  have hperm : autoRatePermitted c6DB ⟨.admin, 0⟩
      ⟨1, some 1, some 7, some 10, 5, true⟩ = true := rfl
  have hfresh : freshIds c6DB := by
    constructor <;> simp [c6DB, freshIds]
  constructor
  · exact (C6_auto_rate c6DB 20 20 ⟨.admin, 0⟩ 1
      ⟨1, some 1, some 7, some 10, 5, true⟩ hfind hperm hfresh).2.2.2 1 7
      (by decide) rfl rfl
  · exact (C6_auto_rate c6DB 5 5 ⟨.admin, 0⟩ 1
      ⟨1, some 1, some 7, some 10, 5, true⟩ hfind hperm hfresh).1 (by decide)

/-- Display string of a homework status. -/
def statusStr : HwStatus → String
  | .pending => "PENDING"
  | .submitted => "SUBMITTED"
  | .rated => "RATED"

/-- Row of the submission stats response (identity fields omitted). -/
structure StatsEntry where
  studentId : Nat
  score : Option Int
  statusTag : String
deriving DecidableEq, Repr

/-- Response of the submission stats endpoint. -/
structure StatsResponse where
  totalStudents : Nat
  submittedCount : Nat
  missedCount : Nat
  notSubmittedCount : Nat
  submittedStudents : List StatsEntry
  notSubmittedStudents : List StatsEntry
deriving DecidableEq, Repr

/-- Errors of LessonViewSet.submission_stats. -/
inductive StatsError where
  | lessonNotFound
  | noGroup
deriving DecidableEq, Repr

/-- Sort comparison of the submitted list: the Python key pair (score is
None, minus score or zero) in ascending lexicographic order, so present
scores come first in descending order and absent scores come last. -/
def statsLe (a b : StatsEntry) : Bool :=
  if a.score.isNone = b.score.isNone then
    decide (b.score.getD 0 ≤ a.score.getD 0)
  else !a.score.isNone

/-- Stats row of one rostered student, with the flag telling whether the
row joins the submitted list: a student with a homework record joins it
with the score of the latest rating, a student without one joins it with a
synthetic zero and marker MISSED once the deadline passed, and stays in
the not submitted list otherwise. -/
def rosterEntry (db : DB) (lesson : Lesson) (now : Nat) (s : Student) :
    StatsEntry × Bool :=
  match findHwFor db.homeworks s.id lesson.id with
  | some hw =>
    let rating := (db.ratings.filter (fun r => r.homeworkId = hw.id)).getLast?
    ({ studentId := s.id
       score := rating.map (fun r => r.score)
       statusTag := statusStr hw.status }, true)
  | none =>
    if is_deadline_passed lesson now then
      ({ studentId := s.id, score := some 0, statusTag := "MISSED" }, true)
    else
      ({ studentId := s.id, score := none, statusTag := "" }, false)

/-- LessonViewSet.submission_stats (lessons/views.py): partitions the
roster, reclassifies post deadline non submitters into the submitted list
with a zero score and marker MISSED, sorts the combined list by the score
key, and reports the three separate counters. -/
def submission_stats (db : DB) (now : Nat) (lessonId : Nat) :
    Except StatsError StatsResponse :=
  match findLesson db.lessons lessonId with
  | none => .error .lessonNotFound
  | some lesson =>
    match lesson.groupId with
    | none => .error .noGroup
    | some lg =>
      let roster := db.students.filter (fun st => st.groupId = some lg)
      let pairs := roster.map (rosterEntry db lesson now)
      let submitted := (pairs.filter (fun p => p.2)).map (fun p => p.1)
      let notSubmitted := (pairs.filter (fun p => !p.2)).map (fun p => p.1)
      let sorted := submitted.mergeSort statsLe
      .ok { totalStudents := roster.length
            submittedCount :=
              (sorted.filter (fun e => e.statusTag ≠ "MISSED")).length
            missedCount :=
              (sorted.filter (fun e => e.statusTag = "MISSED")).length
            notSubmittedCount := notSubmitted.length
            submittedStudents := sorted
            notSubmittedStudents := notSubmitted }

theorem statsLe_trans (a b c : StatsEntry) :
    statsLe a b → statsLe b c → statsLe a c := by
  cases ha : a.score <;> cases hb : b.score <;> cases hc : c.score <;>
    simp [statsLe, ha, hb, hc] <;> omega

theorem statsLe_total (a b : StatsEntry) : statsLe a b || statsLe b a := by
  cases ha : a.score <;> cases hb : b.score <;> simp [statsLe, ha, hb] <;> omega

/-- Claim C9: for a lesson whose deadline has passed, every rostered
student with no homework record appears in the submitted list with a
synthetic score of zero and status marker MISSED; the submitted, missed and
not yet submitted counters are reported as three separate fields (the last
being zero after the deadline, as every non submitter is reclassified); and
the combined submitted plus missed list is sorted descending by score with
absent scores last. -/
theorem C9_submission_stats (db : DB) (now lessonId lg : Nat) (lesson : Lesson)
    (hfind : findLesson db.lessons lessonId = some lesson)
    (hlg : lesson.groupId = some lg)
    (hdl : is_deadline_passed lesson now = true) :
    ∃ resp, submission_stats db now lessonId = .ok resp ∧
      (∀ s ∈ db.students.filter (fun st => st.groupId = some lg),
        findHwFor db.homeworks s.id lesson.id = none →
        ∃ e ∈ resp.submittedStudents, e.studentId = s.id ∧
          e.score = some 0 ∧ e.statusTag = "MISSED") ∧
      resp.submittedCount = (resp.submittedStudents.filter
        (fun e => e.statusTag ≠ "MISSED")).length ∧
      resp.missedCount = (resp.submittedStudents.filter
        (fun e => e.statusTag = "MISSED")).length ∧
      resp.notSubmittedCount = resp.notSubmittedStudents.length ∧
      resp.notSubmittedStudents = [] ∧
      resp.submittedStudents.Pairwise (fun a b =>
        (a.score = none → b.score = none) ∧
        ∀ x y, a.score = some x → b.score = some y → y ≤ x) := by
  have hok : submission_stats db now lessonId = .ok
      { totalStudents := (db.students.filter (fun st => st.groupId = some lg)).length
        submittedCount :=
          ((((db.students.filter (fun st => st.groupId = some lg)).map
            (rosterEntry db lesson now)).filter (fun p => p.2)).map
            (fun p => p.1)).mergeSort statsLe
            |>.filter (fun e => e.statusTag ≠ "MISSED") |>.length
        missedCount :=
          ((((db.students.filter (fun st => st.groupId = some lg)).map
            (rosterEntry db lesson now)).filter (fun p => p.2)).map
            (fun p => p.1)).mergeSort statsLe
            |>.filter (fun e => e.statusTag = "MISSED") |>.length
        notSubmittedCount :=
          ((((db.students.filter (fun st => st.groupId = some lg)).map
            (rosterEntry db lesson now)).filter (fun p => !p.2)).map
            (fun p => p.1)).length
        submittedStudents :=
          ((((db.students.filter (fun st => st.groupId = some lg)).map
            (rosterEntry db lesson now)).filter (fun p => p.2)).map
            (fun p => p.1)).mergeSort statsLe
        notSubmittedStudents :=
          (((db.students.filter (fun st => st.groupId = some lg)).map
            (rosterEntry db lesson now)).filter (fun p => !p.2)).map
            (fun p => p.1) } := by
    simp only [submission_stats, hfind, hlg]
  have hflagged : ∀ s, (rosterEntry db lesson now s).2 = true := by
    intro s
    rw [rosterEntry]
    cases hf : findHwFor db.homeworks s.id lesson.id with
    | some hw => rfl
    | none => simp [hdl]
  have hnone : (((db.students.filter (fun st => st.groupId = some lg)).map
      (rosterEntry db lesson now)).filter (fun p => !p.2)).map
      (fun p => p.1) = ([] : List StatsEntry) := by
    rw [List.map_eq_nil_iff, List.filter_eq_nil_iff]
    intro p hp
    rw [List.mem_map] at hp
    obtain ⟨s, _, rfl⟩ := hp
    simp [hflagged s]
  refine ⟨_, hok, ?_, rfl, rfl, ?_, ?_, ?_⟩
  · intro s hs hnohw
    have hentry : rosterEntry db lesson now s =
        ({ studentId := s.id, score := some 0, statusTag := "MISSED" }, true) := by
      rw [rosterEntry, hnohw, if_pos hdl]
    refine ⟨{ studentId := s.id, score := some 0, statusTag := "MISSED" },
      ?_, rfl, rfl, rfl⟩
    show _ ∈ List.mergeSort _ _
    rw [(List.mergeSort_perm _ statsLe).mem_iff, List.mem_map]
    refine ⟨({ studentId := s.id, score := some 0, statusTag := "MISSED" }, true),
      ?_, rfl⟩
    rw [List.mem_filter]
    exact ⟨by rw [List.mem_map]; exact ⟨s, hs, hentry⟩, rfl⟩
  · show _ = (((_ : List StatsEntry)).length)
    rw [hnone]
  · exact hnone
  · refine (List.sorted_mergeSort statsLe_trans statsLe_total _).imp ?_
    intro a b hle
    rw [statsLe] at hle
    constructor
    · intro ha
      by_cases hiso : a.score.isNone = b.score.isNone
      · cases hb : b.score with
        | none => rfl
        | some y => rw [ha, hb] at hiso; simp at hiso
      · rw [if_neg hiso, ha] at hle
        simp at hle
    · intro x y hx hy
      have hiso : a.score.isNone = b.score.isNone := by simp [hx, hy]
      rw [if_pos hiso, hx, hy] at hle
      simpa using hle

/-- Database of the witness for claim C9: lesson 1 of group 1 with passed
deadline, student 1 with a rated homework of score 9, student 2 with no
homework record. -/
def c9DB : DB :=
  { students := [⟨1, some 1, true⟩, ⟨2, some 1, true⟩]
    groups := [⟨1, some 7, true⟩]
    lessons := [⟨1, some 1, some 7, some 10, 5, true⟩]
    homeworks := [⟨100, 1, 1, .rated, "", none, some 6⟩]
    ratings := [⟨11, 100, 7, 1, 9, 6⟩]
    leaderboard := []
    nextId := 200 }

/-- Witness for claim C9: the stats of lesson 1 at instant 20 put the non
submitting student 2 into the submitted list as MISSED with score zero,
keep three separate counters, and sort scores descending. -/
theorem C9_submission_stats_witness :
    ∃ resp, submission_stats c9DB 20 1 = .ok resp ∧
      (∀ s ∈ c9DB.students.filter (fun st => st.groupId = some 1),
        findHwFor c9DB.homeworks s.id
          (⟨1, some 1, some 7, some 10, 5, true⟩ : Lesson).id = none →
        ∃ e ∈ resp.submittedStudents, e.studentId = s.id ∧
          e.score = some 0 ∧ e.statusTag = "MISSED") ∧
      resp.submittedCount = (resp.submittedStudents.filter
        (fun e => e.statusTag ≠ "MISSED")).length ∧
      resp.missedCount = (resp.submittedStudents.filter
        (fun e => e.statusTag = "MISSED")).length ∧
      resp.notSubmittedCount = resp.notSubmittedStudents.length ∧
      resp.notSubmittedStudents = [] ∧
      resp.submittedStudents.Pairwise (fun a b =>
        (a.score = none → b.score = none) ∧
        ∀ x y, a.score = some x → b.score = some y → y ≤ x) := by
  refine C9_submission_stats c9DB 20 1 1 ⟨1, some 1, some 7, some 10, 5, true⟩
    ?_ rfl (by decide)
  norm_num [findLesson, c9DB, List.find?]

end HWB
